import Mathlib

/-!
# bitblt-hdr: capture engine

A shallow embedding of `src/monitor.cpp` and `src/bitblt_hdr.cpp`.

The platform (DXGI / D3D11 / GDI) is not part of the repository.  Every call
into it is modelled by an *answer* that the caller of a model function
supplies: the `HRESULT` the call returns and the values it leaves in its
out-parameters.  Quantifying over the answers quantifies over every behaviour
of the platform.

* `HRESULT` is a signed 32-bit value, embedded as `Int`; `FAILED hr` is `hr < 0`.
* `UINT` arithmetic is `Nat` arithmetic followed by `% 2 ^ 32`, `size_t`
  arithmetic (64-bit build) by `% 2 ^ 64`.
* A C++ function that may throw `std::runtime_error` returns an `Outcome`.
  A polling loop that is never left is the outcome `stalled`.
* COM pointers are `Option`s of the object they point to.
* A `float` is an exact binary32 value `m * 2 ^ e` (`F32`), arithmetic rounds to
  nearest with ties to even, as an SSE build does; `sinf` and `cosf` belong to
  the C library and are parameters (`LibM`).
-/

namespace BitbltHdr

/-! ## Platform vocabulary -/

abbrev HRESULT := Int

def S_OK : HRESULT := 0

/-- Value `0x887A0001` read as a signed 32-bit integer. -/
def DXGI_ERROR_INVALID_CALL : HRESULT := -2005270527

/-- Value `0x887A0002` read as a signed 32-bit integer. -/
def DXGI_ERROR_NOT_FOUND : HRESULT := -2005270526

/-- Value `0x887A0026` read as a signed 32-bit integer. -/
def DXGI_ERROR_ACCESS_LOST : HRESULT := -2005270490

/-- Value `0x887A0027` read as a signed 32-bit integer. -/
def DXGI_ERROR_WAIT_TIMEOUT : HRESULT := -2005270489

/-- The `FAILED` test of the Windows headers: the sign bit of the result. -/
def FAILED (hr : HRESULT) : Bool := decide (hr < 0)

/-- Enumerators of `DXGI_MODE_ROTATION`. -/
def DXGI_MODE_ROTATION_ROTATE90 : Nat := 2

def DXGI_MODE_ROTATION_ROTATE180 : Nat := 3

def DXGI_MODE_ROTATION_ROTATE270 : Nat := 4

/-- Enumerators of `DXGI_FORMAT` the engine names. -/
def DXGI_FORMAT_R16G16B16A16_FLOAT : Nat := 10

def DXGI_FORMAT_B8G8R8A8_UNORM : Nat := 87

/-- Enumerator of `DXGI_COLOR_SPACE_TYPE` for HDR10. -/
def DXGI_COLOR_SPACE_RGB_FULL_G2084_NONE_P2020 : Nat := 12

/-- The fields of `DXGI_OUTPUT_DESC1` the engine reads. -/
structure OutputDesc where
  left : Int
  top : Int
  right : Int
  bottom : Int
  Rotation : Nat
  AttachedToDesktop : Bool
  ColorSpace : Nat
  deriving DecidableEq, Repr

/-- The zero-filled descriptor `memset` leaves in a fresh `monitor`. -/
def OutputDesc.zero : OutputDesc :=
  { left := 0, top := 0, right := 0, bottom := 0, Rotation := 0,
    AttachedToDesktop := false, ColorSpace := 0 }

/-- A 2-D texture: its identity and the fields of `D3D11_TEXTURE2D_DESC` that
`GetDesc` reports back. -/
structure Texture where
  id : Nat
  Width : Nat
  Height : Nat
  Format : Nat
  deriving DecidableEq, Repr

/-- The `std::runtime_error`s of the two source files, one constructor per
`throw` site, carrying the `HRESULT` the message formats. -/
inductive Err where
  | enum_no_IDXGIDevice
  | enum_GetAdapter (hr : HRESULT)
  | enum_EnumOutputs (hr : HRESULT)
  | enum_no_IDXGIOutput6
  | create_virtual_desktop_texture (hr : HRESULT)
  | create_staging_texture (hr : HRESULT)
  | release_frame (hr : HRESULT)
  | acquire_next_frame (hr : HRESULT)
  | no_texture_from_resource
  | DuplicateOutput1 (hr : HRESULT)
  | update_output_desc_GetDesc1 (hr : HRESULT)
  deriving DecidableEq, Repr

/-- How a call of a C++ function ends: it returns, it throws, or it never
leaves a polling loop. -/
inductive Outcome (α : Type) where
  | ok (a : α)
  | threw (e : Err)
  | stalled
  deriving DecidableEq, Repr

/-- The requests an output session sends to the duplication API, each with
the `HRESULT` it was answered with. -/
inductive Call where
  | DuplicateOutput1 (hr : HRESULT)
  | GetDesc1 (hr : HRESULT)
  | AcquireNextFrame (hr : HRESULT)
  | ReleaseFrame (hr : HRESULT)
  | Sleep
  deriving DecidableEq, Repr

/-! ## `monitor.cpp`: the output session -/

/-- Class `monitor`: `output_` is the handle of the DXGI output, `dup_` the
duplication handle, `last_tex_` the retained source surface. -/
structure monitor where
  output_ : Nat
  dup_ : Option Nat
  last_tex_ : Option Texture
  desc_ : OutputDesc
  deriving DecidableEq, Repr

/-- Constructor `monitor::monitor(output, device)`. -/
def monitor.mk_new (output : Nat) : monitor :=
  { output_ := output, dup_ := none, last_tex_ := none, desc_ := OutputDesc.zero }

/-- Method `monitor::virtual_position`. -/
def monitor.virtual_position (m : monitor) : Int × Int :=
  (m.desc_.left, m.desc_.top)

/-- Method `monitor::rotation`, in degrees.  The source returns the `float`s
`90.f`, `180.f`, `270.f`, `0.f`; the embedding keeps the integer. -/
def monitor.rotation (m : monitor) : Nat :=
  if m.desc_.Rotation = DXGI_MODE_ROTATION_ROTATE90 then 90
  else if m.desc_.Rotation = DXGI_MODE_ROTATION_ROTATE180 then 180
  else if m.desc_.Rotation = DXGI_MODE_ROTATION_ROTATE270 then 270
  else 0

/-- Method `monitor::resolution`. -/
def monitor.resolution (m : monitor) : Int × Int :=
  (m.desc_.right - m.desc_.left, m.desc_.bottom - m.desc_.top)

/-- Method `monitor::hdr_on`. -/
def monitor.hdr_on (m : monitor) : Bool :=
  m.desc_.ColorSpace == DXGI_COLOR_SPACE_RGB_FULL_G2084_NONE_P2020

/-- Answer of `IDXGIOutput6::GetDesc1`: the result and the descriptor left in
the out-parameter. -/
structure DescAnswer where
  hr : HRESULT
  desc : OutputDesc
  deriving DecidableEq, Repr

/-- Method `monitor::update_output_desc`. -/
def monitor.update_output_desc (m : monitor) (a : DescAnswer) :
    Outcome Unit × monitor × List Call :=
  let m1 := { m with desc_ := a.desc }
  if FAILED a.hr then
    (.threw (.update_output_desc_GetDesc1 a.hr), m1, [.GetDesc1 a.hr])
  else
    (.ok (), m1, [.GetDesc1 a.hr])

/-- Answers to the platform calls of one `recreate_output_duplication`:
`DuplicateOutput1` (result and new handle) and `GetDesc1`. -/
structure RecreateAnswer where
  dupHr : HRESULT
  dup : Nat
  getDesc : DescAnswer
  deriving DecidableEq, Repr

/-- Method `monitor::recreate_output_duplication`.  The old handle is dropped
first; a failed `DuplicateOutput1` leaves `dup_` null. -/
def monitor.recreate_output_duplication (m : monitor) (a : RecreateAnswer) :
    Outcome Unit × monitor × List Call :=
  let m0 := { m with dup_ := none }
  if FAILED a.dupHr then
    (.threw (.DuplicateOutput1 a.dupHr), m0, [.DuplicateOutput1 a.dupHr])
  else
    let m1 := { m0 with dup_ := some a.dup }
    match m1.update_output_desc a.getDesc with
    | (o, m2, t) => (o, m2, .DuplicateOutput1 a.dupHr :: t)

/-- Answers to the platform calls of one iteration of the polling loop of
`take_screenshot`.  `acquireHr`, `lastPresentTime` and `resource` are what
`AcquireNextFrame` returns and leaves in `frame_info.LastPresentTime.QuadPart`
and in `resource`; `releaseHr` answers `ReleaseFrame` and `rebind` answers
`recreate_output_duplication`, when the iteration calls them. -/
structure PollAnswer where
  acquireHr : HRESULT
  lastPresentTime : Nat
  resource : Option Texture
  releaseHr : HRESULT
  rebind : RecreateAnswer
  deriving DecidableEq, Repr

/-- The `while (!frame_info.LastPresentTime.QuadPart)` loop of
`monitor::take_screenshot`.  `lpt` and `resource` are the loop's two locals;
the result `ok r` is the value of `resource` when the loop is left.  When the
answers run out the loop is still polling. -/
def monitor.poll_loop (m : monitor) (lpt : Nat) (resource : Option Texture) :
    List PollAnswer → Outcome (Option Texture) × monitor × List Call
  | [] => if lpt ≠ 0 then (.ok resource, m, []) else (.stalled, m, [])
  | a :: rest =>
    if lpt ≠ 0 then (.ok resource, m, [])
    else if a.acquireHr = DXGI_ERROR_INVALID_CALL then
      if a.releaseHr = DXGI_ERROR_ACCESS_LOST then
        match m.recreate_output_duplication a.rebind with
        | (.ok (), m1, t) =>
          match monitor.poll_loop m1 a.lastPresentTime a.resource rest with
          | (o, m2, t2) =>
            (o, m2, .AcquireNextFrame a.acquireHr :: .ReleaseFrame a.releaseHr :: (t ++ t2))
        | (.threw e, m1, t) =>
          (.threw e, m1, .AcquireNextFrame a.acquireHr :: .ReleaseFrame a.releaseHr :: t)
        | (.stalled, m1, t) =>
          (.stalled, m1, .AcquireNextFrame a.acquireHr :: .ReleaseFrame a.releaseHr :: t)
      else if FAILED a.releaseHr then
        (.threw (.release_frame a.releaseHr), m,
          [.AcquireNextFrame a.acquireHr, .ReleaseFrame a.releaseHr])
      else
        match monitor.poll_loop m a.lastPresentTime a.resource rest with
        | (o, m2, t2) =>
          (o, m2, .AcquireNextFrame a.acquireHr :: .ReleaseFrame a.releaseHr :: t2)
    else if a.acquireHr = DXGI_ERROR_ACCESS_LOST then
      match m.recreate_output_duplication a.rebind with
      | (.ok (), m1, t) =>
        match monitor.poll_loop m1 a.lastPresentTime a.resource rest with
        | (o, m2, t2) => (o, m2, .AcquireNextFrame a.acquireHr :: (t ++ t2))
      | (.threw e, m1, t) => (.threw e, m1, .AcquireNextFrame a.acquireHr :: t)
      | (.stalled, m1, t) => (.stalled, m1, .AcquireNextFrame a.acquireHr :: t)
    else if a.acquireHr = DXGI_ERROR_WAIT_TIMEOUT then
      match monitor.poll_loop m a.lastPresentTime a.resource rest with
      | (o, m2, t2) => (o, m2, .AcquireNextFrame a.acquireHr :: .Sleep :: t2)
    else if FAILED a.acquireHr then
      (.threw (.acquire_next_frame a.acquireHr), m, [.AcquireNextFrame a.acquireHr])
    else
      match monitor.poll_loop m a.lastPresentTime a.resource rest with
      | (o, m2, t2) => (o, m2, .AcquireNextFrame a.acquireHr :: t2)

/-- Answers to the platform calls of one `take_screenshot`: `bind` answers the
`recreate_output_duplication` of an unbound session, `polls` the iterations of
the polling loop, `asTexture` whether `resource.as<ID3D11Texture2D>()` yields
an interface. -/
structure ShotAnswers where
  bind : RecreateAnswer
  polls : List PollAnswer
  asTexture : Bool
  deriving DecidableEq, Repr

/-- The part of `monitor::take_screenshot` after the session is bound. -/
def monitor.take_screenshot_bound (m : monitor) (a : ShotAnswers) :
    Outcome Texture × monitor × List Call :=
  let m1 := { m with last_tex_ := none }
  match m1.poll_loop 0 none a.polls with
  | (.ok resource, m2, t) =>
    match (if a.asTexture then resource else none) with
    | none => (.threw .no_texture_from_resource, m2, t)
    | some tex => (.ok tex, { m2 with last_tex_ := some tex }, t)
  | (.threw e, m2, t) => (.threw e, m2, t)
  | (.stalled, m2, t) => (.stalled, m2, t)

/-- Method `monitor::take_screenshot`. -/
def monitor.take_screenshot (m : monitor) (a : ShotAnswers) :
    Outcome Texture × monitor × List Call :=
  match m.dup_ with
  | some _ => m.take_screenshot_bound a
  | none =>
    match m.recreate_output_duplication a.bind with
    | (.ok (), m1, t) =>
      match m1.take_screenshot_bound a with
      | (o, m2, t2) => (o, m2, t ++ t2)
    | (.threw e, m1, t) => (.threw e, m1, t)
    | (.stalled, m1, t) => (.stalled, m1, t)

/-! ## `bitblt_hdr.cpp`: the engine -/

/-- Struct `render_constant_buffer_t`.  Its `float` members are kept by the
integers they are computed from: `white_level` is `none` for the default
`200.0f` and `some v` for `v * 80.0f / 1000.0f`; the rotation entries of
`transform_matrix` are `cosf` and `sinf` of `rotation` degrees, its translation
entries the conversions of `tx` and `ty`. -/
structure render_constant_buffer_t where
  white_level : Option Nat
  is_hdr : Bool
  rotation : Nat
  tx : Int
  ty : Int
  deriving DecidableEq, Repr

/-- Class `bitblt_hdr`.  `device_`, `ctx_`, `render_cs_` and
`render_const_buffer_` record whether the COM pointer is non-null. -/
structure bitblt_hdr where
  device_ : Bool
  ctx_ : Bool
  render_cs_ : Bool
  virtual_desktop_tex_ : Option Texture
  render_const_buffer_ : Bool
  width_ : Int
  height_ : Int
  render_cb_data_ : render_constant_buffer_t
  monitors_ : List monitor
  deriving DecidableEq, Repr

/-- What the engine does that the properties below speak about: an invocation
of `enum_monitors` (and whether it completed without throwing), a request of an
output session, a `Dispatch`, and the `printf` after a failed `render`. -/
inductive Event where
  | enum_monitors (completed : Bool)
  | session (output : Nat) (c : Call)
  | Dispatch (x y z : Nat) (input target : Texture) (cb : render_constant_buffer_t)
  | render_failed (output : Nat)
  deriving DecidableEq, Repr

/-- Value of `D3D_FEATURE_LEVEL_11_0`. -/
def D3D_FEATURE_LEVEL_11_0 : Nat := 0xb000

/-- Answer of `D3D11CreateDevice` and of `GetFeatureLevel` on the device. -/
structure CreateDeviceAnswer where
  hr : HRESULT
  featureLevel : Nat
  deriving DecidableEq, Repr

/-- The members as their default initialisers leave them. -/
def bitblt_hdr.default : bitblt_hdr :=
  { device_ := false, ctx_ := false, render_cs_ := false,
    virtual_desktop_tex_ := none, render_const_buffer_ := false,
    width_ := 0, height_ := 0,
    render_cb_data_ :=
      { white_level := none, is_hdr := false, rotation := 0, tx := 0, ty := 0 },
    monitors_ := [] }

/-- Method `bitblt_hdr::init_desktop_dup`.  A failed `D3D11CreateDevice`
leaves both out-pointers null. -/
def bitblt_hdr.init_desktop_dup (s : bitblt_hdr) (a : CreateDeviceAnswer) :
    Bool × bitblt_hdr :=
  if s.device_ && s.ctx_ then (true, s)
  else if FAILED a.hr then (false, { s with device_ := false, ctx_ := false })
  else if a.featureLevel < D3D_FEATURE_LEVEL_11_0 then
    (false, { s with device_ := false, ctx_ := false })
  else (true, { s with device_ := true, ctx_ := true })

/-- Constructor `bitblt_hdr::bitblt_hdr`. -/
def bitblt_hdr.mk_new (a : CreateDeviceAnswer) : bitblt_hdr :=
  (bitblt_hdr.default.init_desktop_dup a).2

/-- Answers to the platform calls of `create_shader_from_resource`:
whether `FindResource` and `LoadResource` return a handle, and the result of
`CreateComputeShader`. -/
structure ShaderAnswers where
  found : Bool
  loaded : Bool
  hr : HRESULT
  deriving DecidableEq, Repr

/-- Method `bitblt_hdr::create_shader_from_resource`. -/
def bitblt_hdr.create_shader_from_resource (s : bitblt_hdr) (a : ShaderAnswers) :
    Bool × bitblt_hdr :=
  if !s.device_ then (false, s)
  else
    let s0 := { s with render_cs_ := false }
    if !a.found then (false, s0)
    else if !a.loaded then (false, s0)
    else if FAILED a.hr then (false, s0)
    else (true, { s0 with render_cs_ := true })

/-- Method `bitblt_hdr::is_ready`. -/
def bitblt_hdr.is_ready (s : bitblt_hdr) : Bool :=
  s.device_ && s.ctx_ && s.render_cs_

/-- Answers for one index of `IDXGIAdapter::EnumOutputs`: its result, the
`IDXGIOutput6` interface of the output (the handle, or `none` when the query
yields null) and the answer of `GetDesc1`. -/
structure EnumOutputAnswer where
  hr : HRESULT
  output6 : Option Nat
  getDesc : DescAnswer
  deriving DecidableEq, Repr

/-- Answers to the platform calls of one `enum_monitors`: whether the device
has the `IDXGIDevice` interface, the result of `GetAdapter`, and the answers
for the output indices 0, 1, ...; past the end of the list `EnumOutputs`
answers `DXGI_ERROR_NOT_FOUND`. -/
structure EnumAnswers where
  dxgi_device : Bool
  getAdapterHr : HRESULT
  outputs : List EnumOutputAnswer
  deriving DecidableEq, Repr

/-- The `while (true)` loop of `bitblt_hdr::enum_monitors`; `ms` is
`monitors_`. -/
def enum_loop (ms : List monitor) : List EnumOutputAnswer → Outcome Unit × List monitor
  | [] => (.ok (), ms)
  | a :: rest =>
    if a.hr = DXGI_ERROR_NOT_FOUND then (.ok (), ms)
    else if FAILED a.hr then (.threw (.enum_EnumOutputs a.hr), ms)
    else
      match a.output6 with
      | none => (.threw .enum_no_IDXGIOutput6, ms)
      | some o =>
        if FAILED a.getDesc.hr then enum_loop ms rest
        else if a.getDesc.desc.AttachedToDesktop then
          enum_loop (ms ++ [monitor.mk_new o]) rest
        else enum_loop ms rest

/-- Method `bitblt_hdr::enum_monitors`. -/
def bitblt_hdr.enum_monitors (s : bitblt_hdr) (a : EnumAnswers) :
    Outcome Unit × bitblt_hdr :=
  let s0 := { s with monitors_ := [] }
  if !a.dxgi_device then (.threw .enum_no_IDXGIDevice, s0)
  else if FAILED a.getAdapterHr then (.threw (.enum_GetAdapter a.getAdapterHr), s0)
  else
    match enum_loop [] a.outputs with
    | (o, ms) => (o, { s0 with monitors_ := ms })

/-- Results of the three resource creations of `render`. -/
structure RenderAnswers where
  srvHr : HRESULT
  uavHr : HRESULT
  cbHr : HRESULT
  deriving DecidableEq, Repr

/-- Thread-group count of `Dispatch` along one axis: `(extent + 15) / 16` in
`UINT` arithmetic. -/
def groups (extent : Nat) : Nat := ((extent + 15) % 2 ^ 32) / 16

/-- Method `bitblt_hdr::render`. -/
def bitblt_hdr.render (s : bitblt_hdr) (a : RenderAnswers) (input target : Texture) :
    Bool × bitblt_hdr × List Event :=
  let s1 := { s with render_cb_data_ :=
    { s.render_cb_data_ with is_hdr := input.Format == DXGI_FORMAT_R16G16B16A16_FLOAT } }
  if FAILED a.srvHr then (false, s1, [])
  else if FAILED a.uavHr then (false, s1, [])
  else if !s1.render_const_buffer_ then
    if FAILED a.cbHr then (false, s1, [])
    else
      (true, { s1 with render_const_buffer_ := true },
        [.Dispatch (groups input.Width) (groups input.Height) 1 input target s1.render_cb_data_])
  else
    (true, s1,
      [.Dispatch (groups input.Width) (groups input.Height) 1 input target s1.render_cb_data_])

/-- Answers to the platform calls `capture_frame` makes for one output
session: `update_output_desc`, the raw `SDRWhiteLevel` behind
`sdr_white_level` (`none` when a display-configuration query fails),
`take_screenshot` and `render`. -/
structure MonitorAnswers where
  updateDesc : DescAnswer
  sdr_white_level : Option Nat
  shot : ShotAnswers
  render : RenderAnswers
  deriving DecidableEq, Repr

/-- Struct `D3D11_MAPPED_SUBRESOURCE` of the mapped staging surface:
`pData offset` is the byte at `pData + offset`. -/
structure Mapped where
  RowPitch : Nat
  pData : Nat → Nat

/-- Answers to the platform calls of one `capture_frame`: those of
`enum_monitors`, the creation of the composite texture (result and identity),
those of the session at each position of `monitors_`, the creation of the
staging texture and the mapped staging surface. -/
structure CaptureAnswers where
  enum : EnumAnswers
  createTexHr : HRESULT
  texId : Nat
  monitors : Nat → MonitorAnswers
  stagingHr : HRESULT
  mapped : Mapped

/-- Conversion of an `int` to `UINT`. -/
def toUINT (v : Int) : Nat := (v % 2 ^ 32).toNat

/-- The `if (width != width_ || height != height_)` block of `capture_frame`. -/
def bitblt_hdr.refresh_extent (s : bitblt_hdr) (a : EnumAnswers) (width height : Int) :
    Outcome Unit × bitblt_hdr × List Event :=
  if width ≠ s.width_ ∨ height ≠ s.height_ then
    let s0 := { s with virtual_desktop_tex_ := none }
    match s0.enum_monitors a with
    | (.ok (), s1) =>
      (.ok (), { s1 with width_ := width, height_ := height }, [.enum_monitors true])
    | (.threw e, s1) => (.threw e, s1, [.enum_monitors false])
    | (.stalled, s1) => (.stalled, s1, [.enum_monitors false])
  else (.ok (), s, [])

/-- The `if (!virtual_desktop_tex_)` block of `capture_frame`; the result is the
composite texture. -/
def bitblt_hdr.ensure_texture (s : bitblt_hdr) (hr : HRESULT) (texId : Nat) :
    Outcome Texture × bitblt_hdr :=
  match s.virtual_desktop_tex_ with
  | some t => (.ok t, s)
  | none =>
    if FAILED hr then (.threw (.create_virtual_desktop_texture hr), s)
    else
      let t : Texture :=
        { id := texId, Width := toUINT s.width_, Height := toUINT s.height_,
          Format := DXGI_FORMAT_B8G8R8A8_UNORM }
      (.ok t, { s with virtual_desktop_tex_ := some t })

/-- The `for (const auto& monitor : monitors_)` loop of `capture_frame` over the
sessions from position `idx` on; the result carries the sessions as the loop
leaves them. -/
def bitblt_hdr.composite (s : bitblt_hdr) (target : Texture) (origin_x origin_y : Int)
    (ans : Nat → MonitorAnswers) (idx : Nat) :
    List monitor → Outcome Unit × bitblt_hdr × List monitor × List Event
  | [] => (.ok (), s, [], [])
  | m :: rest =>
    let a := ans idx
    match m.update_output_desc a.updateDesc with
    | (.threw e, m1, t) => (.threw e, s, m1 :: rest, t.map (Event.session m.output_))
    | (.stalled, m1, t) => (.stalled, s, m1 :: rest, t.map (Event.session m.output_))
    | (.ok (), m1, t) =>
      let s1 := { s with render_cb_data_ :=
        { s.render_cb_data_ with
            rotation := m1.rotation,
            tx := m1.virtual_position.1 - origin_x,
            ty := m1.virtual_position.2 - origin_y,
            white_level := a.sdr_white_level } }
      match m1.take_screenshot a.shot with
      | (.threw e, m2, t2) => (.threw e, s1, m2 :: rest, (t ++ t2).map (Event.session m.output_))
      | (.stalled, m2, t2) => (.stalled, s1, m2 :: rest, (t ++ t2).map (Event.session m.output_))
      | (.ok screenshot, m2, t2) =>
        match s1.render a.render screenshot target with
        | (done, s2, ev) =>
          match bitblt_hdr.composite s2 target origin_x origin_y ans (idx + 1) rest with
          | (o, s3, ms, ev2) =>
            (o, s3, m2 :: ms,
              (t ++ t2).map (Event.session m.output_) ++ ev ++
                (if done then [] else [Event.render_failed m.output_]) ++ ev2)

/-- Member `std::vector<uint8_t>::resize`. -/
def resize (buffer : List Nat) (n : Nat) : List Nat :=
  buffer.take n ++ List.replicate (n - buffer.length) 0

/-- The bytes of `dest` from position `t` on after
`std::memcpy(dest + off, src + srcOff, n)`; `rest` is `dest` from `t` on. -/
def memcpy_from (off : Nat) (src : Nat → Nat) (srcOff n : Nat) : Nat → List Nat → List Nat
  | _, [] => []
  | t, b :: rest =>
    (if off ≤ t ∧ t < off + n then src (srcOff + (t - off)) else b) ::
      memcpy_from off src srcOff n (t + 1) rest

/-- Call `std::memcpy(dest + off, src + srcOff, n)` for a destination range
inside `dest`. -/
def memcpy (dest : List Nat) (off : Nat) (src : Nat → Nat) (srcOff n : Nat) : List Nat :=
  memcpy_from off src srcOff n 0 dest

/-- The row loop of the readback: rows `0 .. Height - 1` in order. -/
def copy_rows (Width Height : Nat) (mapped : Mapped) (buffer : List Nat) : List Nat :=
  (List.range Height).foldl
    (fun buf i =>
      memcpy buf ((((Width * 4) % 2 ^ 32) * i) % 2 ^ 64) mapped.pData
        ((mapped.RowPitch * i) % 2 ^ 64) ((Width * 4) % 2 ^ 32))
    buffer

/-- The readback of `capture_frame` after the staging copy is mapped:
`buffer.resize` and the row loop. -/
def read_back (staging_desc : Texture) (mapped : Mapped) (buffer : List Nat) : List Nat :=
  copy_rows staging_desc.Width staging_desc.Height mapped
    (resize buffer ((((staging_desc.Width * staging_desc.Height) % 2 ^ 32) * 4) % 2 ^ 32))

/-- Method `bitblt_hdr::capture_frame`; `buffer` is the vector passed by
reference and the result its content on return. -/
def bitblt_hdr.capture_frame (s : bitblt_hdr) (a : CaptureAnswers) (buffer : List Nat)
    (width height origin_x origin_y : Int) :
    Outcome (List Nat) × bitblt_hdr × List Event :=
  match s.refresh_extent a.enum width height with
  | (.threw e, s1, ev) => (.threw e, s1, ev)
  | (.stalled, s1, ev) => (.stalled, s1, ev)
  | (.ok (), s1, ev) =>
    match s1.ensure_texture a.createTexHr a.texId with
    | (.threw e, s2) => (.threw e, s2, ev)
    | (.stalled, s2) => (.stalled, s2, ev)
    | (.ok tex, s2) =>
      match s2.composite tex origin_x origin_y a.monitors 0 s2.monitors_ with
      | (.threw e, s3, ms, ev2) => (.threw e, { s3 with monitors_ := ms }, ev ++ ev2)
      | (.stalled, s3, ms, ev2) => (.stalled, { s3 with monitors_ := ms }, ev ++ ev2)
      | (.ok (), s3, ms, ev2) =>
        let s4 := { s3 with monitors_ := ms }
        if FAILED a.stagingHr then (.threw (.create_staging_texture a.stagingHr), s4, ev ++ ev2)
        else (.ok (read_back tex a.mapped buffer), s4, ev ++ ev2)

/-- The nine arguments of `BitBlt`. -/
structure BltArgs where
  hdc : Nat
  x : Int
  y : Int
  cx : Int
  cy : Int
  hdcSrc : Nat
  x1 : Int
  y1 : Int
  rop : Nat
  deriving DecidableEq, Repr

/-- Value of `CAPTUREBLT`. -/
def CAPTUREBLT : Nat := 0x40000000

/-- The collaborators of `bitblt`: the pass-through primitive `bitblt_`,
`WindowFromDC`, `GetDesktopWindow`, the device context `CreateCompatibleDC`
returns, and the answers for `capture_frame`. -/
structure BltEnv where
  bitblt_ : BltArgs → Bool
  WindowFromDC : Nat → Nat
  GetDesktopWindow : Nat
  CreateCompatibleDC : Nat → Nat
  capture : CaptureAnswers

/-- Method `bitblt_hdr::bitblt`.  The third component lists the calls of the
pass-through primitive, in order, with their arguments. -/
def bitblt_hdr.bitblt (s : bitblt_hdr) (env : BltEnv) (a : BltArgs) :
    Outcome Bool × bitblt_hdr × List BltArgs :=
  if !s.is_ready then (.ok (env.bitblt_ a), s, [a])
  else if env.WindowFromDC a.hdcSrc ≠ env.GetDesktopWindow then (.ok (env.bitblt_ a), s, [a])
  else
    match s.capture_frame env.capture [] a.cx a.cy a.x1 a.y1 with
    | (.threw _, s1, _) => (.ok (env.bitblt_ a), s1, [a])
    | (.stalled, s1, _) => (.stalled, s1, [])
    | (.ok _, s1, _) =>
      let b : BltArgs :=
        { a with hdcSrc := env.CreateCompatibleDC a.hdc, x1 := 0, y1 := 0,
                 rop := a.rop &&& (2 ^ 32 - 1 - CAPTUREBLT) }
      (.ok (env.bitblt_ b), s1, [b])

/-! ## Runs and observations -/

/-- The states the engine can be in: as constructed, after loading the shader,
after a `capture_frame`. -/
inductive Reachable : bitblt_hdr → Prop where
  | construct (d : CreateDeviceAnswer) : Reachable (bitblt_hdr.mk_new d)
  | shader (s : bitblt_hdr) (a : ShaderAnswers) :
      Reachable s → Reachable (s.create_shader_from_resource a).2
  | capture (s : bitblt_hdr) (a : CaptureAnswers) (buffer : List Nat)
      (width height origin_x origin_y : Int) :
      Reachable s → Reachable (s.capture_frame a buffer width height origin_x origin_y).2.1

/-- One `capture_frame` call: its arguments and the platform's answers. -/
structure CaptureCall where
  answers : CaptureAnswers
  buffer : List Nat
  width : Int
  height : Int
  origin_x : Int
  origin_y : Int

/-- The events of a sequence of `capture_frame` calls on one engine.  A call
that throws is followed by the next one (`bitblt` catches the error); after a
call that never returns there is no next one. -/
def bitblt_hdr.capture_frames (s : bitblt_hdr) : List CaptureCall → List Event
  | [] => []
  | c :: rest =>
    match s.capture_frame c.answers c.buffer c.width c.height c.origin_x c.origin_y with
    | (.stalled, _, ev) => ev
    | (.ok _, s1, ev) => ev ++ bitblt_hdr.capture_frames s1 rest
    | (.threw _, s1, ev) => ev ++ bitblt_hdr.capture_frames s1 rest

/-- Number of invocations of `enum_monitors` in a log. -/
def enum_calls (ev : List Event) : Nat :=
  ev.countP (fun e => e = .enum_monitors true ∨ e = .enum_monitors false)

/-- Number of invocations of `enum_monitors` in a log that threw. -/
def enum_failures (ev : List Event) : Nat :=
  ev.countP (fun e => e = .enum_monitors false)

/-- The source textures of the `Dispatch`es of a log, in order. -/
def dispatch_inputs : List Event → List Texture
  | [] => []
  | .Dispatch _ _ _ input _ _ :: rest => input :: dispatch_inputs rest
  | _ :: rest => dispatch_inputs rest

/-- The requests of a sequence of `take_screenshot` calls on one session. -/
def monitor.take_screenshots (m : monitor) : List ShotAnswers → List Call
  | [] => []
  | a :: rest =>
    match m.take_screenshot a with
    | (.stalled, _, t) => t
    | (.ok _, m1, t) => t ++ monitor.take_screenshots m1 rest
    | (.threw _, m1, t) => t ++ monitor.take_screenshots m1 rest

/-- Number of frames acquired and not released after the requests of a trace:
a successful `AcquireNextFrame` adds one, a successful `ReleaseFrame` gives one
back, and `recreate_output_duplication` drops the duplication with its frame
before it calls `DuplicateOutput1`. -/
def outstanding (t : List Call) : Nat :=
  t.foldl
    (fun n c =>
      match c with
      | .AcquireNextFrame hr => if FAILED hr then n else n + 1
      | .ReleaseFrame hr => if FAILED hr then n else n - 1
      | .DuplicateOutput1 _ => 0
      | _ => n)
    0

/-- One step of the check that `ReleaseFrame` is requested right after every
`AcquireNextFrame` answered `DXGI_ERROR_INVALID_CALL` and nowhere else.
`refused` tells whether the request before was such an `AcquireNextFrame`;
`none` is a violation. -/
def refusal_step (refused : Bool) (c : Call) : Option Bool :=
  match c with
  | .ReleaseFrame _ => if refused then some false else none
  | .AcquireNextFrame hr =>
    if refused then none else some (decide (hr = DXGI_ERROR_INVALID_CALL))
  | _ => if refused then none else some false

/-- The check of `refusal_step` along a trace. -/
def refusal_run : Bool → List Call → Option Bool
  | b, [] => some b
  | b, c :: rest =>
    match refusal_step b c with
    | none => none
    | some b2 => refusal_run b2 rest

/-- The session set the specification of `enum_monitors` describes: one fresh session
per enumerated output whose descriptor is attached to the desktop, in
enumeration order. -/
def attached_sessions (outputs : List EnumOutputAnswer) : List monitor :=
  ((outputs.filter (fun o => o.getDesc.desc.AttachedToDesktop)).filterMap
    (fun o => o.output6)).map monitor.mk_new

/-- A poll of `take_screenshot` that brings neither a frame nor an error nor
a loss of access: a timeout, a refusal followed by a successful `ReleaseFrame`,
or a success that reports no new desktop image. -/
def idle_poll (p : PollAnswer) : Prop :=
  p.lastPresentTime = 0 ∧
    (p.acquireHr = DXGI_ERROR_WAIT_TIMEOUT ∨ FAILED p.acquireHr = false ∨
      (p.acquireHr = DXGI_ERROR_INVALID_CALL ∧ FAILED p.releaseHr = false))

/-- A poll in which the duplication API reports access lost, from
`AcquireNextFrame` or from `ReleaseFrame`, and rebinding then succeeds. -/
def access_lost_poll (p : PollAnswer) : Prop :=
  p.lastPresentTime = 0 ∧
    (p.acquireHr = DXGI_ERROR_ACCESS_LOST ∨
      (p.acquireHr = DXGI_ERROR_INVALID_CALL ∧ p.releaseHr = DXGI_ERROR_ACCESS_LOST)) ∧
    FAILED p.rebind.dupHr = false ∧ FAILED p.rebind.getDesc.hr = false

/-- A poll that delivers the frame `tex`: `AcquireNextFrame` succeeds, reports a
present time and leaves `tex` in `resource`. -/
def frame_poll (p : PollAnswer) (tex : Texture) : Prop :=
  FAILED p.acquireHr = false ∧ p.lastPresentTime ≠ 0 ∧ p.resource = some tex

/-- An enumeration in which an adapter or output query fails fatally: the
device has no `IDXGIDevice` interface, `GetAdapter` fails, or, at an output
index the loop reaches, `EnumOutputs` fails with an error other than not-found
or the output has no `IDXGIOutput6` interface. -/
def fatal_query_failure (a : EnumAnswers) : Prop :=
  a.dxgi_device = false ∨ FAILED a.getAdapterHr = true ∨
    ∃ pre o post, a.outputs = pre ++ o :: post ∧
      (∀ p ∈ pre, FAILED p.hr = false ∧ p.output6 ≠ none) ∧
      ((FAILED o.hr = true ∧ o.hr ≠ DXGI_ERROR_NOT_FOUND) ∨
        (FAILED o.hr = false ∧ o.output6 = none))

/-- Value of `E_FAIL`, `0x80004005` read as a signed 32-bit integer. -/
def E_FAIL : HRESULT := -2147467259

/-- A descriptor of an output attached to the desktop at the origin. -/
def demo_desc : OutputDesc :=
  { left := 0, top := 0, right := 1920, bottom := 1080, Rotation := 1,
    AttachedToDesktop := true, ColorSpace := 0 }

/-- An enumeration of two outputs, with handles 7 and 8, in which `GetDesc1`
fails for the first. -/
def demo_enum_desc_failure : EnumAnswers :=
  { dxgi_device := true, getAdapterHr := S_OK,
    outputs :=
      [{ hr := S_OK, output6 := some 7, getDesc := { hr := E_FAIL, desc := demo_desc } },
       { hr := S_OK, output6 := some 8, getDesc := { hr := S_OK, desc := demo_desc } }] }

/-- An enumeration of three outputs, the second of which is not attached to the
desktop. -/
def demo_enum : EnumAnswers :=
  { dxgi_device := true, getAdapterHr := S_OK,
    outputs :=
      [{ hr := S_OK, output6 := some 7, getDesc := { hr := S_OK, desc := demo_desc } },
       { hr := S_OK, output6 := some 8,
         getDesc := { hr := S_OK, desc := { demo_desc with AttachedToDesktop := false } } },
       { hr := S_OK, output6 := some 9, getDesc := { hr := S_OK, desc := demo_desc } }] }

/-- An enumeration whose adapter query fails. -/
def demo_enum_no_adapter : EnumAnswers :=
  { dxgi_device := true, getAdapterHr := E_FAIL, outputs := [] }

/-- The composite texture, when there is one, has the extent stored in
`width_` and `height_`. -/
def TexInv (s : bitblt_hdr) : Prop :=
  ∀ t, s.virtual_desktop_tex_ = some t →
    t.Width = toUINT s.width_ ∧ t.Height = toUINT s.height_

/-- A desktop frame in 8-bit format. -/
def demo_frame : Texture := { id := 5, Width := 1920, Height := 1080, Format := 28 }

/-- A successful `recreate_output_duplication`, giving the handle 1. -/
def demo_rebind : RecreateAnswer :=
  { dupHr := S_OK, dup := 1, getDesc := { hr := S_OK, desc := demo_desc } }

/-- A poll that delivers `demo_frame`. -/
def demo_frame_poll : PollAnswer :=
  { acquireHr := S_OK, lastPresentTime := 1, resource := some demo_frame, releaseHr := S_OK,
    rebind := demo_rebind }

/-- A `take_screenshot` whose first poll delivers `demo_frame`. -/
def demo_shot : ShotAnswers :=
  { bind := demo_rebind, polls := [demo_frame_poll], asTexture := true }

/-- A session for which every platform call succeeds. -/
def demo_monitor_answers : MonitorAnswers :=
  { updateDesc := { hr := S_OK, desc := demo_desc }, sdr_white_level := none,
    shot := demo_shot, render := { srvHr := S_OK, uavHr := S_OK, cbHr := S_OK } }

/-- A mapped staging surface with a row pitch of 16 bytes whose byte at offset
`k` is `k % 256`. -/
def demo_mapped : Mapped := { RowPitch := 16, pData := fun k => k % 256 }

/-- A `capture_frame` in which every platform call succeeds, for the
enumeration `e`. -/
def demo_capture (e : EnumAnswers) : CaptureAnswers :=
  { enum := e, createTexHr := S_OK, texId := 3, monitors := fun _ => demo_monitor_answers,
    stagingHr := S_OK, mapped := demo_mapped }

/-- An engine whose device was created at feature level 11.0. -/
def demo_engine : bitblt_hdr :=
  bitblt_hdr.mk_new { hr := S_OK, featureLevel := D3D_FEATURE_LEVEL_11_0 }

/-- Collaborators of `bitblt` for which every window is the desktop window
and the pass-through primitive reports success. -/
def demo_env : BltEnv :=
  { bitblt_ := fun _ => true, WindowFromDC := fun _ => 0, GetDesktopWindow := 0,
    CreateCompatibleDC := fun _ => 99, capture := demo_capture demo_enum_no_adapter }

/-- Arguments of a 2 x 2 `BitBlt` with `SRCCOPY | CAPTUREBLT`. -/
def demo_args : BltArgs :=
  { hdc := 11, x := 0, y := 0, cx := 2, cy := 2, hdcSrc := 12, x1 := 0, y1 := 0,
    rop := 0x40CC0020 }

/-- An engine that is ready: device, context and shader are present. -/
def demo_ready : bitblt_hdr :=
  (demo_engine.create_shader_from_resource { found := true, loaded := true, hr := S_OK }).2

/-- Answers for an output for which `GetDesc1` fails. -/
def demo_output_desc_failure : EnumOutputAnswer :=
  { hr := S_OK, output6 := some 7, getDesc := { hr := E_FAIL, desc := demo_desc } }

/-- Answers for an output index at which `EnumOutputs` fails. -/
def demo_output_enum_failure : EnumOutputAnswer :=
  { hr := E_FAIL, output6 := none, getDesc := { hr := S_OK, desc := demo_desc } }

/-- An enumeration in which `GetDesc1` fails for the first output and
`EnumOutputs` fails at the second index. -/
def demo_enum_mixed : EnumAnswers :=
  { dxgi_device := true, getAdapterHr := S_OK,
    outputs := [demo_output_desc_failure, demo_output_enum_failure] }

/-- Whether a `render` with answers `a` returns true, given whether the
constant buffer exists already. -/
def render_succeeds (cb : Bool) (a : RenderAnswers) : Bool :=
  !FAILED a.srvHr && !FAILED a.uavHr && (cb || !FAILED a.cbHr)

/-- The session `m` refreshes its descriptor and delivers the screenshot `tex`
under the answers `a`. -/
def session_delivers (m : monitor) (a : MonitorAnswers) (tex : Texture) : Prop :=
  FAILED a.updateDesc.hr = false ∧
    ((m.update_output_desc a.updateDesc).2.1.take_screenshot a.shot).1 = .ok tex

/-- An enumeration of three attached outputs with handles 7, 8 and 9. -/
def demo_enum3 : EnumAnswers :=
  { dxgi_device := true, getAdapterHr := S_OK,
    outputs :=
      [{ hr := S_OK, output6 := some 7, getDesc := { hr := S_OK, desc := demo_desc } },
       { hr := S_OK, output6 := some 8, getDesc := { hr := S_OK, desc := demo_desc } },
       { hr := S_OK, output6 := some 9, getDesc := { hr := S_OK, desc := demo_desc } }] }

/-- The frame the session at position `i` acquires in `demo_capture3`. -/
def demo_frame_of (i : Nat) : Texture :=
  { id := 100 + i, Width := 1920, Height := 1080, Format := 28 }

/-- A `capture_frame` over the three outputs of `demo_enum3` in which the
creation of the shader-resource view fails for the session at position 1 and
every other platform call succeeds. -/
def demo_capture3 : CaptureAnswers :=
  { enum := demo_enum3, createTexHr := S_OK, texId := 3,
    monitors := fun i =>
      { updateDesc := { hr := S_OK, desc := demo_desc }, sdr_white_level := none,
        shot :=
          { bind := demo_rebind,
            polls := [{ demo_frame_poll with resource := some (demo_frame_of i) }],
            asTexture := true },
        render := { srvHr := if i = 1 then E_FAIL else S_OK, uavHr := S_OK, cbHr := S_OK } },
    stagingHr := S_OK, mapped := demo_mapped }

/-- A 2 x 2 capture call whose enumeration fails at `GetAdapter`. -/
def demo_call_enum_fails : CaptureCall :=
  { answers := demo_capture demo_enum_no_adapter, buffer := [], width := 2, height := 2,
    origin_x := 0, origin_y := 0 }

/-- A 2 x 2 capture call in which every platform call succeeds. -/
def demo_call_ok : CaptureCall :=
  { answers := demo_capture demo_enum, buffer := [], width := 2, height := 2,
    origin_x := 0, origin_y := 0 }

/-- A texture to render into. -/
def demo_target : Texture :=
  { id := 3, Width := 1920, Height := 1080, Format := DXGI_FORMAT_B8G8R8A8_UNORM }

/-- A poll in which `AcquireNextFrame` reports access lost and rebinding gives
the handle 2. -/
def demo_lost_poll : PollAnswer :=
  { acquireHr := DXGI_ERROR_ACCESS_LOST, lastPresentTime := 0, resource := none,
    releaseHr := S_OK,
    rebind := { dupHr := S_OK, dup := 2, getDesc := { hr := S_OK, desc := demo_desc } } }

/-- A poll that times out. -/
def demo_timeout_poll : PollAnswer :=
  { acquireHr := DXGI_ERROR_WAIT_TIMEOUT, lastPresentTime := 0, resource := none,
    releaseHr := S_OK, rebind := demo_rebind }

/-- A poll refused with `DXGI_ERROR_INVALID_CALL`, after which `ReleaseFrame`
succeeds. -/
def demo_refused_poll : PollAnswer :=
  { acquireHr := DXGI_ERROR_INVALID_CALL, lastPresentTime := 0, resource := none,
    releaseHr := S_OK, rebind := demo_rebind }

/-- A `take_screenshot` that meets a timeout, a loss of access, a timeout and
then the frame. -/
def demo_shot_lost : ShotAnswers :=
  { bind := demo_rebind,
    polls := [demo_timeout_poll, demo_lost_poll, demo_timeout_poll, demo_frame_poll],
    asTexture := true }

/-- The `take_screenshot` of the capture after `demo_shot`: the frame of the
earlier call is still held, so the first poll is refused. -/
def demo_shot_next : ShotAnswers :=
  { bind := demo_rebind, polls := [demo_refused_poll, demo_frame_poll], asTexture := true }

/-- Number of `AcquireNextFrame` requests in a trace. -/
def acquire_count (t : List Call) : Nat :=
  t.countP (fun c => match c with
    | .AcquireNextFrame _ => true
    | _ => false)

/-- A session of output 7 that is bound to the duplication handle 1 and
retains the texture of an earlier cycle. -/
def demo_bound : monitor :=
  { output_ := 7, dup_ := some 1,
    last_tex_ := some { id := 4, Width := 1920, Height := 1080, Format := 28 },
    desc_ := demo_desc }

/-- A poll in which `AcquireNextFrame` succeeds and hands out `demo_frame`, with
a last-present time of zero (no new desktop image). -/
def demo_quiet_poll : PollAnswer :=
  { acquireHr := S_OK, lastPresentTime := 0, resource := some demo_frame, releaseHr := S_OK,
    rebind := demo_rebind }

/-- A `take_screenshot` whose first poll succeeds with a last-present time of
zero; the next poll is refused, and the one after delivers `demo_frame_of 1`. -/
def demo_shot_quiet : ShotAnswers :=
  { bind := demo_rebind,
    polls := [demo_quiet_poll, demo_refused_poll,
      { demo_frame_poll with resource := some (demo_frame_of 1) }],
    asTexture := true }

/-! ## `float` values of the placement transform -/

theorem groups_eq (n : Nat) (h : n ≤ 16384) : groups n = (n + 15) / 16 := by
  unfold groups
  rw [Nat.mod_eq_of_lt (by omega)]

theorem groups_eq_ceil (n : Nat) (h : n ≤ 16384) : groups n = ⌈(n : ℚ) / 16⌉₊ := by
  rw [groups_eq n h]
  apply le_antisymm
  · by_contra hlt
    push_neg at hlt
    have h1 : (n : ℚ) / 16 ≤ (⌈(n : ℚ) / 16⌉₊ : ℚ) := Nat.le_ceil _
    have h2 : (n : ℚ) ≤ (⌈(n : ℚ) / 16⌉₊ : ℚ) * 16 := by
      rw [div_le_iff₀ (by norm_num)] at h1
      exact h1
    have h3 : n ≤ ⌈(n : ℚ) / 16⌉₊ * 16 := by exact_mod_cast h2
    omega
  · rw [Nat.ceil_le, div_le_iff₀ (by norm_num)]
    have h1 : n ≤ (n + 15) / 16 * 16 := by omega
    exact_mod_cast h1

/-- C7: for a source frame of width and height at most 16384 and a `render`
whose resource creations succeed, `render` returns true and issues exactly one
`Dispatch`, of `⌈Width/16⌉ x ⌈Height/16⌉ x 1` thread groups; for extents of at
least one the 16-wide tiles cover the extent and the last tile is not wholly
outside it. -/
theorem render_dispatch_grid (s : bitblt_hdr) (a : RenderAnswers) (input target : Texture)
    (hw : input.Width ≤ 16384) (hh : input.Height ≤ 16384)
    (hsrv : FAILED a.srvHr = false) (huav : FAILED a.uavHr = false)
    (hcb : s.render_const_buffer_ = true ∨ FAILED a.cbHr = false) :
    (s.render a input target).1 = true ∧
    (∃ cb, (s.render a input target).2.2 =
      [Event.Dispatch ⌈(input.Width : ℚ) / 16⌉₊ ⌈(input.Height : ℚ) / 16⌉₊ 1 input target cb]) ∧
    (∃ cb, (s.render a input target).2.2 =
      [Event.Dispatch ((input.Width + 15) / 16) ((input.Height + 15) / 16) 1 input target cb]) ∧
    (1 ≤ input.Width → input.Width ≤ 16 * ((input.Width + 15) / 16) ∧
      16 * ((input.Width + 15) / 16 - 1) < input.Width) ∧
    (1 ≤ input.Height → input.Height ≤ 16 * ((input.Height + 15) / 16) ∧
      16 * ((input.Height + 15) / 16 - 1) < input.Height) := by
  have gw := groups_eq input.Width hw
  have gh := groups_eq input.Height hh
  have cw := groups_eq_ceil input.Width hw
  have ch := groups_eq_ceil input.Height hh
  refine ⟨?_, ?_, ?_, ?_, ?_⟩
  · rcases hcb with hcb | hcb <;> simp [bitblt_hdr.render, hsrv, huav, hcb]
    cases s.render_const_buffer_ <;> simp
  · rcases hcb with hcb | hcb
    · exact ⟨_, by simp [bitblt_hdr.render, hsrv, huav, hcb, ← cw, ← ch]; rfl⟩
    · cases hb : s.render_const_buffer_
      · exact ⟨_, by simp [bitblt_hdr.render, hsrv, huav, hcb, hb, ← cw, ← ch]; rfl⟩
      · exact ⟨_, by simp [bitblt_hdr.render, hsrv, huav, hcb, hb, ← cw, ← ch]; rfl⟩
  · rcases hcb with hcb | hcb
    · exact ⟨_, by simp [bitblt_hdr.render, hsrv, huav, hcb, ← gw, ← gh]; rfl⟩
    · cases hb : s.render_const_buffer_
      · exact ⟨_, by simp [bitblt_hdr.render, hsrv, huav, hcb, hb, ← gw, ← gh]; rfl⟩
      · exact ⟨_, by simp [bitblt_hdr.render, hsrv, huav, hcb, hb, ← gw, ← gh]; rfl⟩
  · intro h1
    omega
  · intro h1
    omega

/-- Witness of C7: a 1920 x 1080 frame is dispatched as 120 x 68 x 1 groups. -/
theorem render_dispatch_grid_witness :
    (demo_engine.render { srvHr := S_OK, uavHr := S_OK, cbHr := S_OK } demo_frame
      demo_target).1 = true ∧
    (∃ cb, (demo_engine.render { srvHr := S_OK, uavHr := S_OK, cbHr := S_OK } demo_frame
      demo_target).2.2 = [Event.Dispatch 120 68 1 demo_frame demo_target cb]) ∧
    (1 ≤ demo_frame.Width → demo_frame.Width ≤ 16 * ((demo_frame.Width + 15) / 16) ∧
      16 * ((demo_frame.Width + 15) / 16 - 1) < demo_frame.Width) :=
  ⟨(render_dispatch_grid demo_engine { srvHr := S_OK, uavHr := S_OK, cbHr := S_OK } demo_frame
      demo_target (by decide) (by decide) (by decide) (by decide) (Or.inr (by decide))).1,
    (render_dispatch_grid demo_engine { srvHr := S_OK, uavHr := S_OK, cbHr := S_OK } demo_frame
      demo_target (by decide) (by decide) (by decide) (by decide) (Or.inr (by decide))).2.2.1,
    (render_dispatch_grid demo_engine { srvHr := S_OK, uavHr := S_OK, cbHr := S_OK } demo_frame
      demo_target (by decide) (by decide) (by decide) (by decide) (Or.inr (by decide))).2.2.2.1⟩

/-! ## Enumeration -/

theorem not_found_of_not_failed (hr : HRESULT) (h : FAILED hr = false) :
    hr ≠ DXGI_ERROR_NOT_FOUND := by
  intro e
  subst e
  revert h
  decide

theorem enum_loop_ok (outs : List EnumOutputAnswer) :
    ∀ ms : List monitor,
      (∀ o ∈ outs, FAILED o.hr = false ∧ o.output6 ≠ none ∧ FAILED o.getDesc.hr = false) →
      enum_loop ms outs = (.ok (), ms ++ attached_sessions outs) := by
  induction outs with
  | nil => intro ms _; simp [enum_loop, attached_sessions]
  | cons o rest ih =>
    intro ms h
    obtain ⟨h1, h2, h3⟩ := h o (List.mem_cons_self _ _)
    have hrest : ∀ p ∈ rest, FAILED p.hr = false ∧ p.output6 ≠ none ∧
        FAILED p.getDesc.hr = false := fun p hp => h p (List.mem_cons_of_mem _ hp)
    have hnf := not_found_of_not_failed o.hr h1
    obtain ⟨h6, eq6⟩ : ∃ h6, o.output6 = some h6 := by
      cases e : o.output6 with
      | none => exact absurd e h2
      | some v => exact ⟨v, rfl⟩
    cases hatt : o.getDesc.desc.AttachedToDesktop
    · simp [enum_loop, hnf, h1, eq6, h3, hatt, ih ms hrest, attached_sessions]
    · simp [enum_loop, hnf, h1, eq6, h3, hatt, ih _ hrest, attached_sessions]

theorem enum_loop_skip (pre : List EnumOutputAnswer) (o : EnumOutputAnswer)
    (post : List EnumOutputAnswer) (h1 : FAILED o.hr = false) (h2 : o.output6 ≠ none)
    (h3 : FAILED o.getDesc.hr = true) :
    ∀ ms : List monitor, enum_loop ms (pre ++ o :: post) = enum_loop ms (pre ++ post) := by
  have hnf := not_found_of_not_failed o.hr h1
  obtain ⟨h6, eq6⟩ : ∃ h6, o.output6 = some h6 := by
    cases e : o.output6 with
    | none => exact absurd e h2
    | some v => exact ⟨v, rfl⟩
  induction pre with
  | nil => intro ms; simp [enum_loop, hnf, h1, eq6, h3]
  | cons p rest ih =>
    intro ms
    simp only [List.cons_append, enum_loop]
    split
    · rfl
    · split
      · rfl
      · split
        · rfl
        · split
          · exact ih ms
          · split
            · exact ih _
            · exact ih ms

theorem enum_loop_fatal (pre : List EnumOutputAnswer) (o : EnumOutputAnswer)
    (post : List EnumOutputAnswer)
    (hpre : ∀ p ∈ pre, FAILED p.hr = false ∧ p.output6 ≠ none)
    (ho : (FAILED o.hr = true ∧ o.hr ≠ DXGI_ERROR_NOT_FOUND) ∨
      (FAILED o.hr = false ∧ o.output6 = none)) :
    ∀ ms : List monitor, ∃ e, (enum_loop ms (pre ++ o :: post)).1 = .threw e := by
  induction pre with
  | nil =>
    intro ms
    rcases ho with ⟨h1, h2⟩ | ⟨h1, h2⟩
    · simp [enum_loop, h1, h2]
    · have hnf := not_found_of_not_failed o.hr h1
      simp [enum_loop, h1, h2, hnf]
  | cons p rest ih =>
    intro ms
    obtain ⟨h1, h2⟩ := hpre p (List.mem_cons_self _ _)
    have hrest : ∀ q ∈ rest, FAILED q.hr = false ∧ q.output6 ≠ none :=
      fun q hq => hpre q (List.mem_cons_of_mem _ hq)
    have hnf := not_found_of_not_failed p.hr h1
    obtain ⟨h6, eq6⟩ : ∃ h6, p.output6 = some h6 := by
      cases e : p.output6 with
      | none => exact absurd e h2
      | some v => exact ⟨v, rfl⟩
    have step : enum_loop ms (p :: (rest ++ o :: post)) =
        if FAILED p.getDesc.hr then enum_loop ms (rest ++ o :: post)
        else if p.getDesc.desc.AttachedToDesktop then
          enum_loop (ms ++ [monitor.mk_new h6]) (rest ++ o :: post)
        else enum_loop ms (rest ++ o :: post) := by
      simp [enum_loop, hnf, h1, eq6]
    rw [List.cons_append, step]
    split
    · exact ih hrest ms
    · split
      · exact ih hrest _
      · exact ih hrest ms

theorem enum_monitors_fatal (s : bitblt_hdr) (a : EnumAnswers) (h : fatal_query_failure a) :
    ∃ e, (s.enum_monitors a).1 = .threw e := by
  rcases h with h | h | ⟨pre, o, post, hs, hpre, ho⟩
  · simp [bitblt_hdr.enum_monitors, h]
  · cases hd : a.dxgi_device
    · simp [bitblt_hdr.enum_monitors, hd]
    · simp [bitblt_hdr.enum_monitors, hd, h]
  · cases hd : a.dxgi_device
    · simp [bitblt_hdr.enum_monitors, hd]
    · cases hf : FAILED a.getAdapterHr
      · obtain ⟨e, he⟩ := enum_loop_fatal pre o post hpre ho []
        refine ⟨e, ?_⟩
        simp only [bitblt_hdr.enum_monitors, hd, hf, hs]
        simpa using he
      · simp [bitblt_hdr.enum_monitors, hd, hf]

theorem length_filterMap_output6 (l : List EnumOutputAnswer)
    (h : ∀ o ∈ l, o.output6 ≠ none) :
    (l.filterMap (fun o => o.output6)).length = l.length := by
  induction l with
  | nil => rfl
  | cons o rest ih =>
    have h2 := h o (List.mem_cons_self _ _)
    obtain ⟨h6, eq6⟩ : ∃ h6, o.output6 = some h6 := by
      cases e : o.output6 with
      | none => exact absurd e h2
      | some v => exact ⟨v, rfl⟩
    rw [List.filterMap_cons_some eq6, List.length_cons, List.length_cons,
      ih (fun q hq => h q (List.mem_cons_of_mem _ hq))]

/-- C8: when the adapter enumerates its outputs without error, `enum_monitors`
completes and leaves in `monitors_` exactly one fresh session per output whose
descriptor is attached to the desktop, in enumeration order, none for the other
outputs, and nothing of the collection it found. -/
theorem enum_monitors_sessions (s : bitblt_hdr) (a : EnumAnswers)
    (hdev : a.dxgi_device = true) (hadp : FAILED a.getAdapterHr = false)
    (houts : ∀ o ∈ a.outputs,
      FAILED o.hr = false ∧ o.output6 ≠ none ∧ FAILED o.getDesc.hr = false) :
    (s.enum_monitors a).1 = .ok () ∧
    (s.enum_monitors a).2.monitors_ = attached_sessions a.outputs ∧
    (s.enum_monitors a).2.monitors_.length =
      (a.outputs.filter (fun o => o.getDesc.desc.AttachedToDesktop)).length ∧
    (∀ m ∈ (s.enum_monitors a).2.monitors_, m.dup_ = none ∧ m.last_tex_ = none) := by
  have h := enum_loop_ok a.outputs [] houts
  have e1 : s.enum_monitors a = (.ok (), { s with monitors_ := attached_sessions a.outputs }) := by
    simp [bitblt_hdr.enum_monitors, hdev, hadp, h]
  rw [e1]
  refine ⟨rfl, rfl, ?_, ?_⟩
  · simp only [attached_sessions, List.length_map]
    apply length_filterMap_output6
    intro o ho
    exact (houts o (List.mem_of_mem_filter ho)).2.1
  · intro m hm
    simp only [attached_sessions, List.mem_map] at hm
    obtain ⟨o, _, rfl⟩ := hm
    exact ⟨rfl, rfl⟩

/-- Witness of C8: an enumeration of three outputs, the second unattached,
leaves the fresh sessions of the first and the third. -/
theorem enum_monitors_sessions_witness :
    (bitblt_hdr.default.enum_monitors demo_enum).1 = .ok () ∧
    (bitblt_hdr.default.enum_monitors demo_enum).2.monitors_ = attached_sessions demo_enum.outputs ∧
    attached_sessions demo_enum.outputs = [monitor.mk_new 7, monitor.mk_new 9] := by
  have h := enum_monitors_sessions bitblt_hdr.default demo_enum (by decide) (by decide)
    (by decide)
  exact ⟨h.1, h.2.1, by decide⟩

theorem capture_frame_enum_threw (s : bitblt_hdr) (a : CaptureAnswers) (buffer : List Nat)
    (width height origin_x origin_y : Int) (e : Err)
    (hext : width ≠ s.width_ ∨ height ≠ s.height_)
    (h : (s.enum_monitors a.enum).1 = .threw e) :
    (s.capture_frame a buffer width height origin_x origin_y).1 = .threw e := by
  have h0 : ({ s with virtual_desktop_tex_ := none } : bitblt_hdr).enum_monitors a.enum =
      (.threw e, ({ s with virtual_desktop_tex_ := none } : bitblt_hdr).enum_monitors a.enum |>.2) := by
    revert h
    unfold bitblt_hdr.enum_monitors
    split
    · simp
    · split
      · simp
      · simp only
        intro h
        exact Prod.ext h rfl
  simp only [bitblt_hdr.capture_frame, bitblt_hdr.refresh_extent, hext, if_true]
  rw [h0]

/-- C9, as the code has it: when obtaining the DXGI device or the adapter
fails, or `EnumOutputs` fails with an error other than not-found, or the
`IDXGIOutput6` query fails, at an output the loop reaches, `enum_monitors`
throws and the error leaves `capture_frame`.  A failed `GetDesc1` is not an
error: the enumeration goes on as if the output were not in the list. -/
theorem enum_monitors_failures (s : bitblt_hdr) (a : CaptureAnswers) (buffer : List Nat)
    (width height origin_x origin_y : Int) :
    (fatal_query_failure a.enum → (width ≠ s.width_ ∨ height ≠ s.height_) →
      ∃ e, (s.enum_monitors a.enum).1 = .threw e ∧
        (s.capture_frame a buffer width height origin_x origin_y).1 = .threw e) ∧
    (∀ pre o post, a.enum.outputs = pre ++ o :: post →
      FAILED o.hr = false → o.output6 ≠ none → FAILED o.getDesc.hr = true →
      s.enum_monitors a.enum = s.enum_monitors { a.enum with outputs := pre ++ post }) := by
  constructor
  · intro hf hext
    obtain ⟨e, he⟩ := enum_monitors_fatal s a.enum hf
    exact ⟨e, he, capture_frame_enum_threw s a buffer width height origin_x origin_y e hext he⟩
  · intro pre o post hs h1 h2 h3
    simp only [bitblt_hdr.enum_monitors, hs, enum_loop_skip pre o post h1 h2 h3]

/-- Witness of C9, as the code has it: the failure of `EnumOutputs` at the second index
is thrown out of `capture_frame`, and the first output, whose `GetDesc1` fails,
is passed over. -/
theorem enum_monitors_failures_witness :
    (∃ e, (bitblt_hdr.default.enum_monitors demo_enum_mixed).1 = .threw e ∧
      (bitblt_hdr.default.capture_frame (demo_capture demo_enum_mixed) [] 2 2 0 0).1 =
        .threw e) ∧
    bitblt_hdr.default.enum_monitors demo_enum_mixed =
      bitblt_hdr.default.enum_monitors
        { demo_enum_mixed with outputs := [] ++ [demo_output_enum_failure] } :=
  ⟨(enum_monitors_failures bitblt_hdr.default (demo_capture demo_enum_mixed) [] 2 2 0 0).1
      (Or.inr (Or.inr ⟨[demo_output_desc_failure], demo_output_enum_failure, [], rfl,
        by decide, Or.inl (by decide)⟩))
      (Or.inl (by decide)),
    (enum_monitors_failures bitblt_hdr.default (demo_capture demo_enum_mixed) [] 2 2 0 0).2
      [] demo_output_desc_failure [demo_output_enum_failure] rfl (by decide) (by decide)
      (by decide)⟩

/-- Counterexample to the wording of C9: `GetDesc1` fails for the output with handle
7, and `enum_monitors` completes normally with a session for output 8 only. -/
theorem enum_monitors_desc_failure_is_silent :
    FAILED E_FAIL = true ∧
    bitblt_hdr.default.enum_monitors demo_enum_desc_failure =
      (.ok (), { bitblt_hdr.default with monitors_ := [monitor.mk_new 8] }) := by
  decide

/-! ## Readback -/

theorem memcpy_from_length (off : Nat) (src : Nat → Nat) (srcOff n : Nat) (l : List Nat) :
    ∀ t, (memcpy_from off src srcOff n t l).length = l.length := by
  induction l with
  | nil => intro t; rfl
  | cons b rest ih => intro t; simp [memcpy_from, ih]

theorem memcpy_from_getElem? (off : Nat) (src : Nat → Nat) (srcOff n : Nat) (l : List Nat) :
    ∀ t k, (memcpy_from off src srcOff n t l)[k]? =
      (l[k]?).map (fun b => if off ≤ t + k ∧ t + k < off + n then src (srcOff + (t + k - off)) else b) := by
  induction l with
  | nil => intro t k; simp [memcpy_from]
  | cons b rest ih =>
    intro t k
    cases k with
    | zero => simp [memcpy_from]
    | succ k =>
      simp only [memcpy_from, List.getElem?_cons_succ, ih]
      have e : t + 1 + k = t + (k + 1) := by omega
      rw [e]

theorem memcpy_length (dest : List Nat) (off : Nat) (src : Nat → Nat) (srcOff n : Nat) :
    (memcpy dest off src srcOff n).length = dest.length :=
  memcpy_from_length off src srcOff n dest 0

theorem memcpy_get_inside (dest : List Nat) (off : Nat) (src : Nat → Nat) (srcOff n k : Nat)
    (h1 : off ≤ k) (h2 : k < off + n) (h3 : k < dest.length) :
    (memcpy dest off src srcOff n)[k]? = some (src (srcOff + (k - off))) := by
  unfold memcpy
  rw [memcpy_from_getElem?, List.getElem?_eq_getElem h3]
  simp [h1, h2]

theorem memcpy_get_outside (dest : List Nat) (off : Nat) (src : Nat → Nat) (srcOff n k : Nat)
    (h : k < off ∨ off + n ≤ k) :
    (memcpy dest off src srcOff n)[k]? = dest[k]? := by
  unfold memcpy
  rw [memcpy_from_getElem?]
  have hc : ¬ (off ≤ 0 + k ∧ 0 + k < off + n) := by omega
  simp only [hc, if_false]
  cases dest[k]? <;> rfl

theorem resize_length (buffer : List Nat) (n : Nat) : (resize buffer n).length = n := by
  simp only [resize, List.length_append, List.length_take, List.length_replicate]
  omega

theorem copy_rows_spec (W : Nat) (mapped : Mapped) (hW : W ≤ 16384)
    (hP : mapped.RowPitch < 2 ^ 32) :
    ∀ k, k ≤ 16384 → ∀ buf : List Nat, W * 4 * k ≤ buf.length →
      (copy_rows W k mapped buf).length = buf.length ∧
      (∀ i, i < k → ∀ j, j < W * 4 →
        (copy_rows W k mapped buf)[i * W * 4 + j]? = some (mapped.pData (i * mapped.RowPitch + j))) ∧
      (∀ t, W * 4 * k ≤ t → (copy_rows W k mapped buf)[t]? = buf[t]?) := by
  intro k
  induction k with
  | zero =>
    intro _ buf _
    refine ⟨rfl, ?_, ?_⟩
    · intro i hi; omega
    · intro t _; rfl
  | succ k ih =>
    intro hk buf hlen
    have hmul : W * 4 * (k + 1) = W * 4 * k + W * 4 := by ring
    obtain ⟨hl, hrows, hrest⟩ := ih (by omega) buf (by omega)
    have e1 : (W * 4) % 2 ^ 32 = W * 4 := Nat.mod_eq_of_lt (by omega)
    have e2 : (W * 4 * k) % 2 ^ 64 = W * 4 * k := by
      apply Nat.mod_eq_of_lt
      have : W * 4 * k ≤ 65536 * 16384 := Nat.mul_le_mul (by omega) (by omega)
      omega
    have e3 : (mapped.RowPitch * k) % 2 ^ 64 = mapped.RowPitch * k := by
      apply Nat.mod_eq_of_lt
      have : mapped.RowPitch * k ≤ 2 ^ 32 * 16384 := Nat.mul_le_mul (by omega) (by omega)
      omega
    have step : copy_rows W (k + 1) mapped buf =
        memcpy (copy_rows W k mapped buf) (W * 4 * k) mapped.pData (mapped.RowPitch * k) (W * 4) := by
      simp only [copy_rows, List.range_succ, List.foldl_append, List.foldl_cons, List.foldl_nil,
        e1, e2, e3]
    rw [step]
    refine ⟨?_, ?_, ?_⟩
    · rw [memcpy_length, hl]
    · intro i hi j hj
      by_cases hik : i < k
      · have hlt : i * W * 4 + j < W * 4 * k := by
          have : W * 4 * (i + 1) ≤ W * 4 * k := Nat.mul_le_mul_left _ (by omega)
          have e : i * W * 4 + W * 4 = W * 4 * (i + 1) := by ring
          omega
        rw [memcpy_get_outside _ _ _ _ _ _ (Or.inl hlt)]
        exact hrows i hik j hj
      · have hie : i = k := by omega
        subst hie
        have e : i * W * 4 = W * 4 * i := by ring
        rw [memcpy_get_inside _ _ _ _ _ _ (by omega) (by omega) (by rw [hl]; omega)]
        congr 2
        rw [e, Nat.mul_comm mapped.RowPitch i]
        omega
    · intro t ht
      rw [memcpy_get_outside _ _ _ _ _ _ (Or.inr (by omega))]
      exact hrest t (by omega)

theorem read_back_spec (tex : Texture) (mapped : Mapped) (buffer : List Nat)
    (hW : tex.Width ≤ 16384) (hH : tex.Height ≤ 16384) (hP : mapped.RowPitch < 2 ^ 32) :
    (read_back tex mapped buffer).length = tex.Width * tex.Height * 4 ∧
    ∀ i, i < tex.Height → ∀ j, j < tex.Width * 4 →
      (read_back tex mapped buffer)[i * tex.Width * 4 + j]? =
        some (mapped.pData (i * mapped.RowPitch + j)) := by
  have hb : tex.Width * tex.Height ≤ 16384 * 16384 := Nat.mul_le_mul hW hH
  have e1 : (tex.Width * tex.Height) % 2 ^ 32 = tex.Width * tex.Height :=
    Nat.mod_eq_of_lt (by omega)
  have e2 : (tex.Width * tex.Height * 4) % 2 ^ 32 = tex.Width * tex.Height * 4 :=
    Nat.mod_eq_of_lt (by omega)
  have hlen := resize_length buffer (tex.Width * tex.Height * 4)
  have h := copy_rows_spec tex.Width mapped hW hP tex.Height hH
    (resize buffer (tex.Width * tex.Height * 4)) (by rw [hlen]; apply le_of_eq; ring)
  simp only [read_back, e1, e2]
  exact ⟨by rw [h.1, hlen], h.2.1⟩

/-! ## The composite texture keeps the requested extent -/

theorem enum_monitors_fields (s : bitblt_hdr) (a : EnumAnswers) :
    (s.enum_monitors a).2.virtual_desktop_tex_ = s.virtual_desktop_tex_ ∧
    (s.enum_monitors a).2.width_ = s.width_ ∧
    (s.enum_monitors a).2.height_ = s.height_ := by
  unfold bitblt_hdr.enum_monitors
  split
  · exact ⟨rfl, rfl, rfl⟩
  · split
    · exact ⟨rfl, rfl, rfl⟩
    · exact ⟨rfl, rfl, rfl⟩

theorem refresh_extent_inv (s : bitblt_hdr) (a : EnumAnswers) (width height : Int)
    (hinv : TexInv s) : TexInv (s.refresh_extent a width height).2.1 := by
  unfold bitblt_hdr.refresh_extent
  split
  · have hf := enum_monitors_fields { s with virtual_desktop_tex_ := none } a
    dsimp only
    split
    all_goals
      rename_i heq
      rw [heq] at hf
      intro t ht
      simp_all
  · exact hinv

theorem refresh_extent_ok (s : bitblt_hdr) (a : EnumAnswers) (width height : Int)
    (h : (s.refresh_extent a width height).1 = .ok ()) :
    (s.refresh_extent a width height).2.1.width_ = width ∧
    (s.refresh_extent a width height).2.1.height_ = height := by
  revert h
  unfold bitblt_hdr.refresh_extent
  split
  · dsimp only
    split
    · intro _; exact ⟨rfl, rfl⟩
    · intro h; simp at h
    · intro h; simp at h
  · rename_i hne
    intro _
    push_neg at hne
    exact ⟨hne.1.symm, hne.2.symm⟩

theorem ensure_texture_spec (s : bitblt_hdr) (hr : HRESULT) (texId : Nat) (hinv : TexInv s) :
    TexInv (s.ensure_texture hr texId).2 ∧
    (s.ensure_texture hr texId).2.width_ = s.width_ ∧
    (s.ensure_texture hr texId).2.height_ = s.height_ ∧
    (s.ensure_texture hr texId).2.monitors_ = s.monitors_ ∧
    ∀ t, (s.ensure_texture hr texId).1 = .ok t →
      t.Width = toUINT s.width_ ∧ t.Height = toUINT s.height_ := by
  unfold bitblt_hdr.ensure_texture
  split
  · rename_i t ht
    refine ⟨hinv, rfl, rfl, rfl, ?_⟩
    intro t2 h2
    simp only [Outcome.ok.injEq] at h2
    subst h2
    exact hinv t ht
  · split
    · refine ⟨hinv, rfl, rfl, rfl, ?_⟩
      intro t2 h2
      simp at h2
    · refine ⟨?_, rfl, rfl, rfl, ?_⟩
      · intro t ht
        simp only [Option.some.injEq] at ht
        subst ht
        exact ⟨rfl, rfl⟩
      · intro t2 h2
        simp only [Outcome.ok.injEq] at h2
        subst h2
        exact ⟨rfl, rfl⟩

theorem render_fields (s : bitblt_hdr) (a : RenderAnswers) (input target : Texture) :
    (s.render a input target).2.1.virtual_desktop_tex_ = s.virtual_desktop_tex_ ∧
    (s.render a input target).2.1.width_ = s.width_ ∧
    (s.render a input target).2.1.height_ = s.height_ := by
  unfold bitblt_hdr.render
  simp only
  split
  · exact ⟨rfl, rfl, rfl⟩
  · split
    · exact ⟨rfl, rfl, rfl⟩
    · split
      · split
        · exact ⟨rfl, rfl, rfl⟩
        · exact ⟨rfl, rfl, rfl⟩
      · exact ⟨rfl, rfl, rfl⟩

theorem composite_fields (target : Texture) (origin_x origin_y : Int)
    (ans : Nat → MonitorAnswers) (ms : List monitor) :
    ∀ (s : bitblt_hdr) (idx : Nat),
      (s.composite target origin_x origin_y ans idx ms).2.1.virtual_desktop_tex_ =
        s.virtual_desktop_tex_ ∧
      (s.composite target origin_x origin_y ans idx ms).2.1.width_ = s.width_ ∧
      (s.composite target origin_x origin_y ans idx ms).2.1.height_ = s.height_ := by
  induction ms with
  | nil => intro s idx; exact ⟨rfl, rfl, rfl⟩
  | cons m rest ih =>
    intro s idx
    unfold bitblt_hdr.composite
    simp only
    split
    · exact ⟨rfl, rfl, rfl⟩
    · exact ⟨rfl, rfl, rfl⟩
    · split
      · exact ⟨rfl, rfl, rfl⟩
      · exact ⟨rfl, rfl, rfl⟩
      · exact ⟨(ih _ _).1.trans (render_fields _ _ _ _).1,
          (ih _ _).2.1.trans (render_fields _ _ _ _).2.1,
          (ih _ _).2.2.trans (render_fields _ _ _ _).2.2⟩

theorem TexInv_of_fields (s s2 : bitblt_hdr)
    (h1 : s2.virtual_desktop_tex_ = s.virtual_desktop_tex_) (h2 : s2.width_ = s.width_)
    (h3 : s2.height_ = s.height_) (hinv : TexInv s) : TexInv s2 := by
  intro t ht
  rw [h1] at ht
  rw [h2, h3]
  exact hinv t ht

theorem capture_frame_spec (s : bitblt_hdr) (a : CaptureAnswers) (buffer : List Nat)
    (width height origin_x origin_y : Int) (hinv : TexInv s) :
    TexInv (s.capture_frame a buffer width height origin_x origin_y).2.1 ∧
    ∀ out, (s.capture_frame a buffer width height origin_x origin_y).1 = .ok out →
      ∃ tex : Texture, tex.Width = toUINT width ∧ tex.Height = toUINT height ∧
        out = read_back tex a.mapped buffer := by
  have i1 := refresh_extent_inv s a.enum width height hinv
  have k1 := refresh_extent_ok s a.enum width height
  rcases h1 : s.refresh_extent a.enum width height with ⟨o1, s1, ev1⟩
  rw [h1] at i1 k1
  cases o1 with
  | threw e => simp only [bitblt_hdr.capture_frame, h1]; exact ⟨i1, by intro out h; simp at h⟩
  | stalled => simp only [bitblt_hdr.capture_frame, h1]; exact ⟨i1, by intro out h; simp at h⟩
  | ok u =>
    obtain ⟨kw, kh⟩ := k1 rfl
    dsimp only at kw kh i1
    obtain ⟨i2, w2, h2, _, t2⟩ := ensure_texture_spec s1 a.createTexHr a.texId i1
    rcases e2 : s1.ensure_texture a.createTexHr a.texId with ⟨o2, s2⟩
    rw [e2] at i2 w2 h2 t2
    dsimp only at i2 w2 h2 t2
    cases o2 with
    | threw e => simp only [bitblt_hdr.capture_frame, h1, e2]; exact ⟨i2, by intro out h; simp at h⟩
    | stalled => simp only [bitblt_hdr.capture_frame, h1, e2]; exact ⟨i2, by intro out h; simp at h⟩
    | ok tex =>
      obtain ⟨tw, th⟩ := t2 tex rfl
      have cf := composite_fields tex origin_x origin_y a.monitors s2.monitors_ s2 0
      rcases e3 : s2.composite tex origin_x origin_y a.monitors 0 s2.monitors_ with
        ⟨o3, s3, ms, ev2⟩
      rw [e3] at cf
      dsimp only at cf
      have i3 : TexInv { s3 with monitors_ := ms } :=
        TexInv_of_fields s2 _ cf.1 cf.2.1 cf.2.2 i2
      cases o3 with
      | threw e =>
        simp only [bitblt_hdr.capture_frame, h1, e2, e3]
        exact ⟨i3, by intro out h; simp at h⟩
      | stalled =>
        simp only [bitblt_hdr.capture_frame, h1, e2, e3]
        exact ⟨i3, by intro out h; simp at h⟩
      | ok u3 =>
        simp only [bitblt_hdr.capture_frame, h1, e2, e3]
        split
        · exact ⟨i3, by intro out h; simp at h⟩
        · refine ⟨i3, ?_⟩
          intro out h
          simp only [Outcome.ok.injEq] at h
          exact ⟨tex, by rw [tw, kw], by rw [th, kh], h.symm⟩

theorem reachable_inv (s : bitblt_hdr) (h : Reachable s) : TexInv s := by
  induction h with
  | construct d =>
    intro t ht
    have : (bitblt_hdr.mk_new d).virtual_desktop_tex_ = none := by
      simp only [bitblt_hdr.mk_new, bitblt_hdr.init_desktop_dup, bitblt_hdr.default]
      split
      · rfl
      · split
        · rfl
        · split <;> rfl
    rw [this] at ht
    simp at ht
  | shader s a _ ih =>
    apply TexInv_of_fields s _ _ _ _ ih
    all_goals
      unfold bitblt_hdr.create_shader_from_resource
      dsimp only
      repeat' split
      all_goals rfl
  | capture s a buffer width height origin_x origin_y _ ih =>
    exact (capture_frame_spec s a buffer width height origin_x origin_y ih).1

theorem toUINT_natCast (n : Nat) (h : n ≤ 16384) : toUINT (n : Int) = n := by
  unfold toUINT
  have : ((n : Int) % 2 ^ 32) = (n : Int) := Int.emod_eq_of_lt (by omega) (by omega)
  rw [this]
  simp

/-- C1: a `capture_frame(buffer, width, height, origin_x, origin_y)` that
returns, on an engine in a reachable state, with `width` and `height` positive
and at most 16384, leaves in `buffer` exactly `width * height * 4` bytes, the
requested extent, tightly packed: whatever row pitch `P` the mapped staging
surface reports (`P >= width * 4` or not), the byte at `i * width * 4 + j` is
the mapped byte at `i * P + j`, for every row `i < height` and offset
`j < width * 4`. -/
theorem capture_frame_packed (s : bitblt_hdr) (hs : Reachable s) (a : CaptureAnswers)
    (buffer : List Nat) (width height : Nat) (origin_x origin_y : Int) (out : List Nat)
    (hw : 0 < width ∧ width ≤ 16384) (hh : 0 < height ∧ height ≤ 16384)
    (huint : a.mapped.RowPitch < 2 ^ 32)
    (hret : (s.capture_frame a buffer width height origin_x origin_y).1 = .ok out) :
    out.length = width * height * 4 ∧
    ∀ i, i < height → ∀ j, j < width * 4 →
      out[i * width * 4 + j]? = some (a.mapped.pData (i * a.mapped.RowPitch + j)) := by
  obtain ⟨tex, tw, th, rfl⟩ :=
    (capture_frame_spec s a buffer width height origin_x origin_y (reachable_inv s hs)).2 out hret
  rw [toUINT_natCast width hw.2] at tw
  rw [toUINT_natCast height hh.2] at th
  have h := read_back_spec tex a.mapped buffer (by omega) (by omega) huint
  rw [tw, th] at h
  exact h

/-- Witness of C1: a 2 x 2 capture read back from a surface with a row pitch of
16 bytes returns the 16 bytes of the two rows without the padding. -/
theorem capture_frame_packed_witness :
    (demo_engine.capture_frame (demo_capture demo_enum) [] 2 2 0 0).1 =
      .ok [0, 1, 2, 3, 4, 5, 6, 7, 16, 17, 18, 19, 20, 21, 22, 23] ∧
    ([0, 1, 2, 3, 4, 5, 6, 7, 16, 17, 18, 19, 20, 21, 22, 23] : List Nat).length = 2 * 2 * 4 ∧
    ∀ i, i < 2 → ∀ j, j < 2 * 4 →
      ([0, 1, 2, 3, 4, 5, 6, 7, 16, 17, 18, 19, 20, 21, 22, 23] : List Nat)[i * 2 * 4 + j]? =
        some (demo_mapped.pData (i * demo_mapped.RowPitch + j)) :=
  ⟨by decide,
    capture_frame_packed demo_engine (Reachable.construct _) (demo_capture demo_enum) [] 2 2 0 0
      _ (by decide) (by decide) (by decide) (by decide)⟩

/-! ## Fallback to the pass-through primitive -/

theorem not_ready_of_init_failure (d : CreateDeviceAnswer) (sh : ShaderAnswers)
    (h : (bitblt_hdr.default.init_desktop_dup d).1 = false) :
    ((bitblt_hdr.mk_new d).create_shader_from_resource sh).2.is_ready = false := by
  have hdev : (bitblt_hdr.mk_new d).device_ = false := by
    revert h
    simp only [bitblt_hdr.mk_new, bitblt_hdr.init_desktop_dup, bitblt_hdr.default]
    split
    · intro h; simp at h
    · split
      · intro _; rfl
      · split
        · intro _; rfl
        · intro h; simp at h
  simp [bitblt_hdr.create_shader_from_resource, bitblt_hdr.is_ready, hdev]

/-- C2: when `is_ready()` is false (in particular on an engine whose
`init_desktop_dup` failed), or the source context is not the desktop window's,
or `capture_frame` throws, `bitblt` calls the pass-through primitive exactly
once, with the nine original arguments, and returns its result. -/
theorem bitblt_defers (s : bitblt_hdr) (env : BltEnv) (a : BltArgs)
    (h : s.is_ready = false ∨
      (∃ d sh, (bitblt_hdr.default.init_desktop_dup d).1 = false ∧
        s = ((bitblt_hdr.mk_new d).create_shader_from_resource sh).2) ∨
      env.WindowFromDC a.hdcSrc ≠ env.GetDesktopWindow ∨
      ∃ e, (s.capture_frame env.capture [] a.cx a.cy a.x1 a.y1).1 = .threw e) :
    (s.bitblt env a).1 = .ok (env.bitblt_ a) ∧ (s.bitblt env a).2.2 = [a] := by
  have key : s.is_ready = false ∨ env.WindowFromDC a.hdcSrc ≠ env.GetDesktopWindow ∨
      ∃ e, (s.capture_frame env.capture [] a.cx a.cy a.x1 a.y1).1 = .threw e := by
    rcases h with h | ⟨d, sh, hd, rfl⟩ | h | h
    · exact Or.inl h
    · exact Or.inl (not_ready_of_init_failure d sh hd)
    · exact Or.inr (Or.inl h)
    · exact Or.inr (Or.inr h)
  unfold bitblt_hdr.bitblt
  rcases key with h | h | ⟨e, h⟩
  · simp [h]
  · split
    · exact ⟨rfl, rfl⟩
    · simp [h]
  · split
    · exact ⟨rfl, rfl⟩
    · split
      · exact ⟨rfl, rfl⟩
      · rcases hc : s.capture_frame env.capture [] a.cx a.cy a.x1 a.y1 with ⟨o, s1, ev⟩
        rw [hc] at h
        dsimp only at h
        subst h
        exact ⟨rfl, rfl⟩

/-- Witness of C2: on a ready engine whose enumeration fails, `capture_frame`
throws and `bitblt` passes the original arguments through once. -/
theorem bitblt_defers_witness :
    (demo_ready.is_ready = true ∧
      (demo_ready.capture_frame demo_env.capture [] demo_args.cx demo_args.cy demo_args.x1
        demo_args.y1).1 = .threw (.enum_GetAdapter E_FAIL)) ∧
    (demo_ready.bitblt demo_env demo_args).1 = .ok (demo_env.bitblt_ demo_args) ∧
    (demo_ready.bitblt demo_env demo_args).2.2 = [demo_args] :=
  ⟨by decide,
    bitblt_defers demo_ready demo_env demo_args (Or.inr (Or.inr (Or.inr ⟨.enum_GetAdapter E_FAIL, by decide⟩)))⟩

/-! ## A failed `render` does not stop the capture -/

theorem render_spec (s : bitblt_hdr) (a : RenderAnswers) (input target : Texture) :
    (s.render a input target).1 = render_succeeds s.render_const_buffer_ a ∧
    (s.render a input target).2.1.render_const_buffer_ =
      (s.render_const_buffer_ || render_succeeds s.render_const_buffer_ a) ∧
    dispatch_inputs (s.render a input target).2.2 =
      (if render_succeeds s.render_const_buffer_ a then [input] else []) := by
  unfold bitblt_hdr.render render_succeeds
  cases FAILED a.srvHr <;> cases FAILED a.uavHr <;> cases FAILED a.cbHr <;>
    cases s.render_const_buffer_ <;> simp [dispatch_inputs]

theorem dispatch_inputs_append (l1 l2 : List Event) :
    dispatch_inputs (l1 ++ l2) = dispatch_inputs l1 ++ dispatch_inputs l2 := by
  induction l1 with
  | nil => rfl
  | cons e rest ih => cases e <;> simp [dispatch_inputs, ih]

theorem dispatch_inputs_session (o : Nat) (t : List Call) :
    dispatch_inputs (t.map (Event.session o)) = [] := by
  induction t with
  | nil => rfl
  | cons c rest ih => simp [dispatch_inputs, ih]

theorem composite_cons_delivers (s : bitblt_hdr) (target : Texture) (origin_x origin_y : Int)
    (ans : Nat → MonitorAnswers) (idx : Nat) (m : monitor) (rest : List monitor)
    (tex : Texture) (h : session_delivers m (ans idx) tex) :
    ∃ (s1 : bitblt_hdr) (t : List Call), s1.render_const_buffer_ = s.render_const_buffer_ ∧
      (s.composite target origin_x origin_y ans idx (m :: rest)).1 =
        ((s1.render (ans idx).render tex target).2.1.composite target origin_x origin_y ans
          (idx + 1) rest).1 ∧
      (s.composite target origin_x origin_y ans idx (m :: rest)).2.2.2 =
        t.map (Event.session m.output_) ++ (s1.render (ans idx).render tex target).2.2 ++
          (if (s1.render (ans idx).render tex target).1 then []
            else [Event.render_failed m.output_]) ++
          ((s1.render (ans idx).render tex target).2.1.composite target origin_x origin_y ans
            (idx + 1) rest).2.2.2 := by
  obtain ⟨hu, hshot⟩ := h
  have e1 : m.update_output_desc (ans idx).updateDesc =
      (.ok (), { m with desc_ := (ans idx).updateDesc.desc },
        [.GetDesc1 (ans idx).updateDesc.hr]) := by
    simp [monitor.update_output_desc, hu]
  rw [e1] at hshot
  dsimp only at hshot
  rcases e2 : monitor.take_screenshot { m with desc_ := (ans idx).updateDesc.desc }
    (ans idx).shot with ⟨o2, m2, t2⟩
  rw [e2] at hshot
  dsimp only at hshot
  subst hshot
  refine ⟨{ s with render_cb_data_ :=
      { s.render_cb_data_ with
          rotation := monitor.rotation { m with desc_ := (ans idx).updateDesc.desc },
          tx := (monitor.virtual_position { m with desc_ := (ans idx).updateDesc.desc }).1 - origin_x,
          ty := (monitor.virtual_position { m with desc_ := (ans idx).updateDesc.desc }).2 - origin_y,
          white_level := (ans idx).sdr_white_level } },
    [.GetDesc1 (ans idx).updateDesc.hr] ++ t2, rfl, ?_, ?_⟩
  · simp only [bitblt_hdr.composite, e1, e2]
  · simp only [bitblt_hdr.composite, e1, e2]

theorem composite_three (s : bitblt_hdr) (target : Texture) (origin_x origin_y : Int)
    (ans : Nat → MonitorAnswers) (m0 m1 m2 : monitor) (tex0 tex1 tex2 : Texture)
    (h0 : session_delivers m0 (ans 0) tex0) (h1 : session_delivers m1 (ans 1) tex1)
    (h2 : session_delivers m2 (ans 2) tex2) :
    ∃ b0 b1 b2 : Bool,
      b0 = render_succeeds s.render_const_buffer_ (ans 0).render ∧
      b1 = render_succeeds (s.render_const_buffer_ || b0) (ans 1).render ∧
      b2 = render_succeeds (s.render_const_buffer_ || b0 || b1) (ans 2).render ∧
      (s.composite target origin_x origin_y ans 0 [m0, m1, m2]).1 = .ok () ∧
      dispatch_inputs (s.composite target origin_x origin_y ans 0 [m0, m1, m2]).2.2.2 =
        (if b0 then [tex0] else []) ++ (if b1 then [tex1] else []) ++
          (if b2 then [tex2] else []) ∧
      (b0 = false → Event.render_failed m0.output_ ∈
        (s.composite target origin_x origin_y ans 0 [m0, m1, m2]).2.2.2) ∧
      (b1 = false → Event.render_failed m1.output_ ∈
        (s.composite target origin_x origin_y ans 0 [m0, m1, m2]).2.2.2) ∧
      (b2 = false → Event.render_failed m2.output_ ∈
        (s.composite target origin_x origin_y ans 0 [m0, m1, m2]).2.2.2) := by
  obtain ⟨sa, ta, ca, oa, ea⟩ :=
    composite_cons_delivers s target origin_x origin_y ans 0 m0 [m1, m2] tex0 h0
  obtain ⟨ra1, ra2, ra3⟩ := render_spec sa (ans 0).render tex0 target
  obtain ⟨sb, tb, cb, ob, eb⟩ :=
    composite_cons_delivers (sa.render (ans 0).render tex0 target).2.1 target origin_x origin_y
      ans 1 m1 [m2] tex1 h1
  obtain ⟨rb1, rb2, rb3⟩ := render_spec sb (ans 1).render tex1 target
  obtain ⟨sc, tc, cc, oc, ec⟩ :=
    composite_cons_delivers (sb.render (ans 1).render tex1 target).2.1 target origin_x origin_y
      ans 2 m2 [] tex2 h2
  obtain ⟨rc1, rc2, rc3⟩ := render_spec sc (ans 2).render tex2 target
  rw [ca] at ra1 ra2 ra3
  rw [cb, ra2] at rb1 rb2 rb3
  rw [cc, rb2] at rc1 rc2 rc3
  refine ⟨_, _, _, rfl, rfl, rfl, ?_, ?_, ?_, ?_, ?_⟩
  · rw [oa, ob, oc]
    rfl
  · rw [ea, eb, ec]
    simp only [dispatch_inputs_append, dispatch_inputs_session, ra3, rb3, rc3, List.nil_append]
    have e : ∀ (b : Bool) (o : Nat),
        dispatch_inputs (if b = true then [] else [Event.render_failed o]) = [] := by
      intro b o
      cases b <;> rfl
    simp only [e, List.append_nil, bitblt_hdr.composite, dispatch_inputs, List.append_assoc]
  · intro hb
    rw [ea, ra1, hb]
    simp
  · intro hb
    rw [ea, eb, rb1, hb]
    simp
  · intro hb
    rw [ea, eb, ec, rc1, hb]
    simp

theorem refresh_extent_aux (s : bitblt_hdr) (a : EnumAnswers) (width height : Int) :
    (s.refresh_extent a width height).2.1.render_const_buffer_ = s.render_const_buffer_ ∧
    dispatch_inputs (s.refresh_extent a width height).2.2 = [] := by
  unfold bitblt_hdr.refresh_extent
  split
  · have hf : ∀ s0 : bitblt_hdr,
        (s0.enum_monitors a).2.render_const_buffer_ = s0.render_const_buffer_ := by
      intro s0
      unfold bitblt_hdr.enum_monitors
      dsimp only
      repeat' split
      all_goals rfl
    have h := hf { s with virtual_desktop_tex_ := none }
    dsimp only
    split
    all_goals
      rename_i heq
      rw [heq] at h
      exact ⟨h, rfl⟩
  · exact ⟨rfl, rfl⟩

theorem ensure_texture_ok (s : bitblt_hdr) (hr : HRESULT) (texId : Nat)
    (h : FAILED hr = false) :
    ∃ tex, (s.ensure_texture hr texId).1 = .ok tex ∧
      (s.ensure_texture hr texId).2.monitors_ = s.monitors_ ∧
      (s.ensure_texture hr texId).2.render_const_buffer_ = s.render_const_buffer_ := by
  unfold bitblt_hdr.ensure_texture
  split
  · exact ⟨_, rfl, rfl, rfl⟩
  · simp [h]

/-- C6: in a capture cycle over three sessions that all deliver a screenshot,
with the composite and staging textures created, in which `render` fails for
exactly one of them (a view creation fails, or the creation of the constant
buffer does), `capture_frame` returns a buffer of the full
`width * height * 4` bytes; the failed `render` issues no `Dispatch` (the
dispatches are those of the two other screenshots, in order) and is reported. -/
theorem capture_survives_render_failure (s : bitblt_hdr) (hs : Reachable s)
    (a : CaptureAnswers) (buffer : List Nat) (width height : Nat) (origin_x origin_y : Int)
    (m0 m1 m2 : monitor) (tex0 tex1 tex2 : Texture) (k : Nat)
    (hw : 0 < width ∧ width ≤ 16384) (hh : 0 < height ∧ height ≤ 16384)
    (huint : a.mapped.RowPitch < 2 ^ 32)
    (hrefresh : (s.refresh_extent a.enum width height).1 = .ok ())
    (hms : (s.refresh_extent a.enum width height).2.1.monitors_ = [m0, m1, m2])
    (htex : FAILED a.createTexHr = false) (hstaging : FAILED a.stagingHr = false)
    (h0 : session_delivers m0 (a.monitors 0) tex0)
    (h1 : session_delivers m1 (a.monitors 1) tex1)
    (h2 : session_delivers m2 (a.monitors 2) tex2)
    (hk : k < 3)
    (hfail : FAILED (a.monitors k).render.srvHr = true ∨
      FAILED (a.monitors k).render.uavHr = true ∨
      (FAILED (a.monitors k).render.cbHr = true ∧ k = 0 ∧ s.render_const_buffer_ = false))
    (hothers : ∀ j, j < 3 → j ≠ k →
      FAILED (a.monitors j).render.srvHr = false ∧ FAILED (a.monitors j).render.uavHr = false ∧
        FAILED (a.monitors j).render.cbHr = false) :
    ∃ out, (s.capture_frame a buffer width height origin_x origin_y).1 = .ok out ∧
      out.length = width * height * 4 ∧
      dispatch_inputs (s.capture_frame a buffer width height origin_x origin_y).2.2 =
        [tex0, tex1, tex2].eraseIdx k ∧
      ∃ o, ([m0, m1, m2].map monitor.output_)[k]? = some o ∧
        Event.render_failed o ∈
          (s.capture_frame a buffer width height origin_x origin_y).2.2 := by
  have spec := capture_frame_spec s a buffer width height origin_x origin_y (reachable_inv s hs)
  obtain ⟨aux1, aux2⟩ := refresh_extent_aux s a.enum width height
  rcases e1 : s.refresh_extent a.enum width height with ⟨o1, s1, ev1⟩
  rw [e1] at hrefresh hms aux1 aux2
  dsimp only at hrefresh hms aux1 aux2
  subst hrefresh
  obtain ⟨tex, et1, et2, et3⟩ := ensure_texture_ok s1 a.createTexHr a.texId htex
  rcases e2 : s1.ensure_texture a.createTexHr a.texId with ⟨o2, s2⟩
  rw [e2] at et1 et2 et3
  dsimp only at et1 et2 et3
  subst et1
  obtain ⟨b0, b1, b2, hb0, hb1, hb2, c1, c2, c3, c4, c5⟩ :=
    composite_three s2 tex origin_x origin_y a.monitors m0 m1 m2 tex0 tex1 tex2 h0 h1 h2
  rw [et3, aux1] at hb0 hb1 hb2
  rcases e3 : s2.composite tex origin_x origin_y a.monitors 0 [m0, m1, m2] with
    ⟨o3, s3, ms, ev2⟩
  rw [e3] at c1 c2 c3 c4 c5
  dsimp only at c1 c2 c3 c4 c5
  subst c1
  have hs2 : s2.monitors_ = [m0, m1, m2] := by rw [et2, hms]
  have hcap : s.capture_frame a buffer width height origin_x origin_y =
      (.ok (read_back tex a.mapped buffer), { s3 with monitors_ := ms }, ev1 ++ ev2) := by
    simp only [bitblt_hdr.capture_frame, e1, e2, hs2, e3, hstaging]
    simp
  rw [hcap] at spec ⊢
  obtain ⟨tex9, tw, th, hout⟩ := spec.2 _ rfl
  rw [toUINT_natCast width hw.2] at tw
  rw [toUINT_natCast height hh.2] at th
  have hlen := (read_back_spec tex9 a.mapped buffer (by omega) (by omega) huint).1
  rw [tw, th, ← hout] at hlen
  refine ⟨_, rfl, hlen, ?_, ?_⟩
  · dsimp only
    rw [dispatch_inputs_append, aux2, c2, List.nil_append]
    have k0 : k = 0 ∨ k = 1 ∨ k = 2 := by omega
    rcases k0 with rfl | rfl | rfl
    · obtain ⟨p1, p2, p3⟩ := hothers 1 (by omega) (by omega)
      obtain ⟨q1, q2, q3⟩ := hothers 2 (by omega) (by omega)
      have f0 : b0 = false := by
        rw [hb0]
        rcases hfail with h | h | ⟨h, _, hc⟩
        · simp [render_succeeds, h]
        · simp [render_succeeds, h]
        · simp [render_succeeds, h, hc]
      simp [hb1, hb2, f0, render_succeeds, p1, p2, p3, q1, q2, q3]
    · obtain ⟨p1, p2, p3⟩ := hothers 0 (by omega) (by omega)
      obtain ⟨q1, q2, q3⟩ := hothers 2 (by omega) (by omega)
      have t0 : b0 = true := by simp [hb0, render_succeeds, p1, p2, p3]
      have f1 : b1 = false := by
        rw [hb1]
        rcases hfail with h | h | ⟨_, hc, _⟩
        · simp [render_succeeds, h]
        · simp [render_succeeds, h]
        · omega
      simp [hb2, t0, f1, render_succeeds, q1, q2, q3]
    · obtain ⟨p1, p2, p3⟩ := hothers 0 (by omega) (by omega)
      obtain ⟨q1, q2, q3⟩ := hothers 1 (by omega) (by omega)
      have t0 : b0 = true := by simp [hb0, render_succeeds, p1, p2, p3]
      have t1 : b1 = true := by simp [hb1, render_succeeds, q1, q2, q3]
      have f2 : b2 = false := by
        rw [hb2]
        rcases hfail with h | h | ⟨_, hc, _⟩
        · simp [render_succeeds, h]
        · simp [render_succeeds, h]
        · omega
      simp [t0, t1, f2]
  · dsimp only
    have k0 : k = 0 ∨ k = 1 ∨ k = 2 := by omega
    rcases k0 with rfl | rfl | rfl
    · refine ⟨m0.output_, rfl, List.mem_append_right _ (c3 ?_)⟩
      rw [hb0]
      rcases hfail with h | h | ⟨h, _, hc⟩
      · simp [render_succeeds, h]
      · simp [render_succeeds, h]
      · simp [render_succeeds, h, hc]
    · refine ⟨m1.output_, rfl, List.mem_append_right _ (c4 ?_)⟩
      rw [hb1]
      rcases hfail with h | h | ⟨_, hc, _⟩
      · simp [render_succeeds, h]
      · simp [render_succeeds, h]
      · omega
    · refine ⟨m2.output_, rfl, List.mem_append_right _ (c5 ?_)⟩
      rw [hb2]
      rcases hfail with h | h | ⟨_, hc, _⟩
      · simp [render_succeeds, h]
      · simp [render_succeeds, h]
      · omega

/-- Witness of C6: three outputs, the view creation fails for the second; the
capture returns 16 bytes for 2 x 2 and dispatches the first and the third
screenshot only. -/
theorem capture_survives_render_failure_witness :
    ∃ out, (demo_engine.capture_frame demo_capture3 [] 2 2 0 0).1 = .ok out ∧
      out.length = 2 * 2 * 4 ∧
      dispatch_inputs (demo_engine.capture_frame demo_capture3 [] 2 2 0 0).2.2 =
        [demo_frame_of 0, demo_frame_of 1, demo_frame_of 2].eraseIdx 1 ∧
      ∃ o, ([monitor.mk_new 7, monitor.mk_new 8, monitor.mk_new 9].map monitor.output_)[1]? =
          some o ∧
        Event.render_failed o ∈ (demo_engine.capture_frame demo_capture3 [] 2 2 0 0).2.2 :=
  capture_survives_render_failure demo_engine (Reachable.construct _) demo_capture3 [] 2 2 0 0
    (monitor.mk_new 7) (monitor.mk_new 8) (monitor.mk_new 9)
    (demo_frame_of 0) (demo_frame_of 1) (demo_frame_of 2) 1
    (by decide) (by decide) (by decide) (by decide) (by decide) (by decide) (by decide)
    ⟨by decide, by decide⟩ ⟨by decide, by decide⟩ ⟨by decide, by decide⟩ (by decide)
    (Or.inl (by decide))
    (by
      intro j hj hne
      have hj2 : j = 0 ∨ j = 2 := by omega
      rcases hj2 with rfl | rfl <;> decide)

/-! ## How often the session directory is rebuilt -/

theorem enum_counts_append (l1 l2 : List Event) :
    enum_calls (l1 ++ l2) = enum_calls l1 + enum_calls l2 ∧
    enum_failures (l1 ++ l2) = enum_failures l1 + enum_failures l2 := by
  simp [enum_calls, enum_failures, List.countP_append]

theorem enum_counts_zero (ev : List Event) (h : ∀ e ∈ ev, ∀ b, e ≠ Event.enum_monitors b) :
    enum_calls ev = 0 ∧ enum_failures ev = 0 := by
  constructor
  · unfold enum_calls
    rw [List.countP_eq_zero]
    intro e he
    have h1 := h e he true
    have h2 := h e he false
    simp [h1, h2]
  · unfold enum_failures
    rw [List.countP_eq_zero]
    intro e he
    have h2 := h e he false
    simp [h2]

theorem render_no_enum (s : bitblt_hdr) (a : RenderAnswers) (input target : Texture) :
    ∀ e ∈ (s.render a input target).2.2, ∀ b, e ≠ Event.enum_monitors b := by
  unfold bitblt_hdr.render
  dsimp only
  repeat' split
  all_goals
    intro e he b
    simp at he
    try (subst he; simp)

theorem composite_no_enum (target : Texture) (origin_x origin_y : Int)
    (ans : Nat → MonitorAnswers) (ms : List monitor) :
    ∀ (s : bitblt_hdr) (idx : Nat),
      ∀ e ∈ (s.composite target origin_x origin_y ans idx ms).2.2.2,
        ∀ b, e ≠ Event.enum_monitors b := by
  induction ms with
  | nil => intro s idx e he; simp [bitblt_hdr.composite] at he
  | cons m rest ih =>
    intro s idx e he b
    have hsess : ∀ (o : Nat) (t : List Call), e ∈ t.map (Event.session o) →
        e ≠ Event.enum_monitors b := by
      intro o t ht
      simp only [List.mem_map] at ht
      obtain ⟨c, _, rfl⟩ := ht
      simp
    revert he
    unfold bitblt_hdr.composite
    dsimp only
    split
    · exact hsess _ _
    · exact hsess _ _
    · split
      · exact hsess _ _
      · exact hsess _ _
      · intro he
        simp only [List.mem_append] at he
        rcases he with ((he | he) | he) | he
        · exact hsess _ _ he
        · exact render_no_enum _ _ _ _ e he b
        · split at he
          · simp at he
          · simp only [List.mem_singleton] at he
            subst he
            simp
        · exact ih _ _ e he b

theorem capture_frame_decomp (s : bitblt_hdr) (a : CaptureAnswers) (buffer : List Nat)
    (width height origin_x origin_y : Int) :
    ∃ ev2 : List Event,
      (s.capture_frame a buffer width height origin_x origin_y).2.2 =
        (s.refresh_extent a.enum width height).2.2 ++ ev2 ∧
      (∀ e ∈ ev2, ∀ b, e ≠ Event.enum_monitors b) ∧
      (s.capture_frame a buffer width height origin_x origin_y).2.1.width_ =
        (s.refresh_extent a.enum width height).2.1.width_ ∧
      (s.capture_frame a buffer width height origin_x origin_y).2.1.height_ =
        (s.refresh_extent a.enum width height).2.1.height_ := by
  have hnil : ∀ e ∈ ([] : List Event), ∀ b, e ≠ Event.enum_monitors b := by
    intro e he
    simp at he
  rcases h1 : s.refresh_extent a.enum width height with ⟨o1, s1, ev1⟩
  cases o1 with
  | threw e =>
    exact ⟨[], by simp [bitblt_hdr.capture_frame, h1], hnil,
      by simp [bitblt_hdr.capture_frame, h1], by simp [bitblt_hdr.capture_frame, h1]⟩
  | stalled =>
    exact ⟨[], by simp [bitblt_hdr.capture_frame, h1], hnil,
      by simp [bitblt_hdr.capture_frame, h1], by simp [bitblt_hdr.capture_frame, h1]⟩
  | ok u =>
    have hw2 : ∀ hr id, (s1.ensure_texture hr id).2.width_ = s1.width_ ∧
        (s1.ensure_texture hr id).2.height_ = s1.height_ := by
      intro hr id
      unfold bitblt_hdr.ensure_texture
      repeat' split
      all_goals exact ⟨rfl, rfl⟩
    have w2 := hw2 a.createTexHr a.texId
    rcases e2 : s1.ensure_texture a.createTexHr a.texId with ⟨o2, s2⟩
    rw [e2] at w2
    dsimp only at w2
    cases o2 with
    | threw e =>
      exact ⟨[], by simp [bitblt_hdr.capture_frame, h1, e2], hnil,
        by simp [bitblt_hdr.capture_frame, h1, e2, w2.1],
        by simp [bitblt_hdr.capture_frame, h1, e2, w2.2]⟩
    | stalled =>
      exact ⟨[], by simp [bitblt_hdr.capture_frame, h1, e2], hnil,
        by simp [bitblt_hdr.capture_frame, h1, e2, w2.1],
        by simp [bitblt_hdr.capture_frame, h1, e2, w2.2]⟩
    | ok tex =>
      have cf := composite_fields tex origin_x origin_y a.monitors s2.monitors_ s2 0
      have ne := composite_no_enum tex origin_x origin_y a.monitors s2.monitors_ s2 0
      rcases e3 : s2.composite tex origin_x origin_y a.monitors 0 s2.monitors_ with
        ⟨o3, s3, ms, ev2⟩
      rw [e3] at cf ne
      dsimp only at cf ne
      refine ⟨ev2, ?_, ne, ?_, ?_⟩
      · cases o3 <;> simp only [bitblt_hdr.capture_frame, h1, e2, e3]
        split <;> rfl
      · cases o3 <;> simp only [bitblt_hdr.capture_frame, h1, e2, e3]
        · split <;> simp [cf.2.1, w2.1]
        · simp [cf.2.1, w2.1]
        · simp [cf.2.1, w2.1]
      · cases o3 <;> simp only [bitblt_hdr.capture_frame, h1, e2, e3]
        · split <;> simp [cf.2.2, w2.2]
        · simp [cf.2.2, w2.2]
        · simp [cf.2.2, w2.2]

theorem refresh_extent_events (s : bitblt_hdr) (a : EnumAnswers) (width height : Int) :
    ((width = s.width_ ∧ height = s.height_) →
      (s.refresh_extent a width height).2.2 = [] ∧
      (s.refresh_extent a width height).2.1.width_ = width ∧
      (s.refresh_extent a width height).2.1.height_ = height) ∧
    ((width ≠ s.width_ ∨ height ≠ s.height_) →
      ((s.refresh_extent a width height).2.2 = [.enum_monitors true] ∧
        (s.refresh_extent a width height).2.1.width_ = width ∧
        (s.refresh_extent a width height).2.1.height_ = height) ∨
      ((s.refresh_extent a width height).2.2 = [.enum_monitors false] ∧
        (s.refresh_extent a width height).1 ≠ .ok ())) := by
  constructor
  · rintro ⟨hw, hh⟩
    have : ¬ (width ≠ s.width_ ∨ height ≠ s.height_) := by
      push_neg
      exact ⟨hw, hh⟩
    simp only [bitblt_hdr.refresh_extent, this, if_false]
    simp [hw, hh]
  · intro hext
    simp only [bitblt_hdr.refresh_extent, hext, if_true]
    split <;> simp

theorem capture_frames_stable (width height : Int) (calls : List CaptureCall) :
    ∀ s : bitblt_hdr, (∀ c ∈ calls, c.width = width ∧ c.height = height) →
      s.width_ = width → s.height_ = height →
      enum_calls (s.capture_frames calls) = 0 ∧ enum_failures (s.capture_frames calls) = 0 := by
  induction calls with
  | nil => intro s _ _ _; exact ⟨rfl, rfl⟩
  | cons c rest ih =>
    intro s hsame hw hh
    obtain ⟨cw, ch⟩ := hsame c (List.mem_cons_self _ _)
    have hrest : ∀ d ∈ rest, d.width = width ∧ d.height = height :=
      fun d hd => hsame d (List.mem_cons_of_mem _ hd)
    obtain ⟨ev2, hev, hne, hw2, hh2⟩ :=
      capture_frame_decomp s c.answers c.buffer c.width c.height c.origin_x c.origin_y
    obtain ⟨r1, r2, r3⟩ := (refresh_extent_events s c.answers.enum c.width c.height).1
      ⟨by rw [cw, hw], by rw [ch, hh]⟩
    rw [r1, List.nil_append] at hev
    replace hw2 := hw2.trans (r2.trans cw)
    replace hh2 := hh2.trans (r3.trans ch)
    have z := enum_counts_zero ev2 hne
    rcases hc : s.capture_frame c.answers c.buffer c.width c.height c.origin_x c.origin_y with
      ⟨o, s1, ev⟩
    rw [hc] at hev hw2 hh2
    dsimp only at hev hw2 hh2
    subst hev
    have i := ih s1 hrest hw2 hh2
    cases o <;> simp only [bitblt_hdr.capture_frames, hc]
    · rw [(enum_counts_append _ _).1, (enum_counts_append _ _).2, z.1, z.2, i.1, i.2]
      exact ⟨rfl, rfl⟩
    · rw [(enum_counts_append _ _).1, (enum_counts_append _ _).2, z.1, z.2, i.1, i.2]
      exact ⟨rfl, rfl⟩
    · exact z

theorem capture_frame_enum_calls (s : bitblt_hdr) (a : CaptureAnswers) (buffer : List Nat)
    (width height origin_x origin_y : Int) :
    enum_calls (s.capture_frame a buffer width height origin_x origin_y).2.2 =
      if width ≠ s.width_ ∨ height ≠ s.height_ then 1 else 0 := by
  obtain ⟨ev2, hev, hne, _, _⟩ :=
    capture_frame_decomp s a buffer width height origin_x origin_y
  have z := enum_counts_zero ev2 hne
  rw [hev, (enum_counts_append _ _).1, z.1]
  split
  · rename_i hext
    rcases (refresh_extent_events s a.enum width height).2 hext with ⟨h, _, _⟩ | ⟨h, _⟩ <;>
      rw [h] <;> rfl
  · rename_i hext
    push_neg at hext
    rw [((refresh_extent_events s a.enum width height).1 hext).1]
    rfl

theorem capture_frames_enum_bound (width height : Int) (calls : List CaptureCall) :
    ∀ s : bitblt_hdr, (∀ c ∈ calls, c.width = width ∧ c.height = height) →
      enum_calls (s.capture_frames calls) ≤ enum_failures (s.capture_frames calls) + 1 := by
  induction calls with
  | nil => intro s _; exact Nat.zero_le _
  | cons c rest ih =>
    intro s hsame
    by_cases hst : s.width_ = width ∧ s.height_ = height
    · have z := capture_frames_stable width height (c :: rest) s hsame hst.1 hst.2
      rw [z.1]
      exact Nat.zero_le _
    · obtain ⟨cw, ch⟩ := hsame c (List.mem_cons_self _ _)
      have hrest : ∀ d ∈ rest, d.width = width ∧ d.height = height :=
        fun d hd => hsame d (List.mem_cons_of_mem _ hd)
      have hext : c.width ≠ s.width_ ∨ c.height ≠ s.height_ := by
        rw [cw, ch]
        by_contra hcon
        push_neg at hcon
        exact hst ⟨hcon.1.symm, hcon.2.symm⟩
      obtain ⟨ev2, hev, hne, hw2, hh2⟩ :=
        capture_frame_decomp s c.answers c.buffer c.width c.height c.origin_x c.origin_y
      have z := enum_counts_zero ev2 hne
      rcases hc : s.capture_frame c.answers c.buffer c.width c.height c.origin_x c.origin_y with
        ⟨o, s1, ev⟩
      rw [hc] at hev hw2 hh2
      dsimp only at hev hw2 hh2
      rcases (refresh_extent_events s c.answers.enum c.width c.height).2 hext with
        ⟨r1, r2, r3⟩ | ⟨r1, _⟩
      · have st := capture_frames_stable width height rest s1 hrest
          (hw2.trans (r2.trans cw)) (hh2.trans (r3.trans ch))
        have e1 : enum_calls ev = 1 := by
          rw [hev, r1, (enum_counts_append _ _).1, z.1]
          rfl
        cases o <;> simp only [bitblt_hdr.capture_frames, hc]
        · rw [(enum_counts_append _ _).1, e1, st.1]
          omega
        · rw [(enum_counts_append _ _).1, e1, st.1]
          omega
        · omega
      · have i := ih s1 hrest
        have e1 : enum_calls ev = 1 := by
          rw [hev, r1, (enum_counts_append _ _).1, z.1]
          rfl
        have e2 : enum_failures ev = 1 := by
          rw [hev, r1, (enum_counts_append _ _).2, z.2]
          rfl
        cases o <;> simp only [bitblt_hdr.capture_frames, hc]
        · rw [(enum_counts_append _ _).1, (enum_counts_append _ _).2, e1, e2]
          omega
        · rw [(enum_counts_append _ _).1, (enum_counts_append _ _).2, e1, e2]
          omega
        · omega

/-- C4, as the code has it: over a sequence of `capture_frame` calls that all
request the same extent, whatever the origins and the platform's answers, at
most one invocation of `enum_monitors` completes: the invocations are at most
one more than those that threw, and at most one when none throws.  A call
invokes `enum_monitors` exactly when its requested width or height differs
from the stored `width_` and `height_`. -/
theorem enum_monitors_completes_once (s : bitblt_hdr) (calls : List CaptureCall)
    (width height : Int) (hsame : ∀ c ∈ calls, c.width = width ∧ c.height = height) :
    enum_calls (s.capture_frames calls) ≤ enum_failures (s.capture_frames calls) + 1 ∧
    (enum_failures (s.capture_frames calls) = 0 → enum_calls (s.capture_frames calls) ≤ 1) ∧
    ∀ (t : bitblt_hdr) (c : CaptureCall),
      enum_calls (t.capture_frame c.answers c.buffer c.width c.height c.origin_x
        c.origin_y).2.2 = if c.width ≠ t.width_ ∨ c.height ≠ t.height_ then 1 else 0 := by
  have h := capture_frames_enum_bound width height calls s hsame
  refine ⟨h, ?_, ?_⟩
  · intro h0
    omega
  · intro t c
    exact capture_frame_enum_calls t c.answers c.buffer c.width c.height c.origin_x c.origin_y

/-- Witness of C4, as the code has it: three calls for 2 x 2, the first of which fails
to enumerate; `enum_monitors` is invoked twice, once throwing. -/
theorem enum_monitors_completes_once_witness :
    enum_calls (demo_ready.capture_frames [demo_call_enum_fails, demo_call_ok, demo_call_ok]) = 2 ∧
    enum_failures
      (demo_ready.capture_frames [demo_call_enum_fails, demo_call_ok, demo_call_ok]) = 1 ∧
    enum_calls (demo_ready.capture_frames [demo_call_enum_fails, demo_call_ok, demo_call_ok]) ≤
      enum_failures
        (demo_ready.capture_frames [demo_call_enum_fails, demo_call_ok, demo_call_ok]) + 1 :=
  ⟨by decide, by decide,
    (enum_monitors_completes_once demo_ready [demo_call_enum_fails, demo_call_ok, demo_call_ok]
      2 2 (by decide)).1⟩

/-- Counterexample to the wording of C4: two calls that request the same 2 x 2
extent, the first of which fails to enumerate, invoke `enum_monitors` twice. -/
theorem enum_monitors_twice_for_one_extent :
    demo_call_enum_fails.width = demo_call_ok.width ∧
    demo_call_enum_fails.height = demo_call_ok.height ∧
    enum_calls (demo_ready.capture_frames [demo_call_enum_fails, demo_call_ok]) = 2 := by
  decide

/-! ## Recovery from a lost duplication -/

theorem codes_of_not_failed (hr : HRESULT) (h : FAILED hr = false) :
    hr ≠ DXGI_ERROR_INVALID_CALL ∧ hr ≠ DXGI_ERROR_ACCESS_LOST ∧
      hr ≠ DXGI_ERROR_WAIT_TIMEOUT := by
  refine ⟨?_, ?_, ?_⟩ <;>
  · intro e
    subst e
    revert h
    decide

theorem poll_loop_exit (m : monitor) (lpt : Nat) (r : Option Texture) (l : List PollAnswer)
    (h : lpt ≠ 0) : m.poll_loop lpt r l = (.ok r, m, []) := by
  cases l <;> simp [monitor.poll_loop, h]

theorem poll_loop_frame (m : monitor) (r : Option Texture) (f : PollAnswer)
    (rest : List PollAnswer) (tex : Texture) (h : frame_poll f tex) :
    m.poll_loop 0 r (f :: rest) = (.ok (some tex), m, [.AcquireNextFrame f.acquireHr]) := by
  obtain ⟨h1, h2, h3⟩ := h
  obtain ⟨c1, c2, c3⟩ := codes_of_not_failed f.acquireHr h1
  rw [monitor.poll_loop]
  simp only [c1, c2, c3, h1, h3, poll_loop_exit m f.lastPresentTime (some tex) rest h2]
  simp

theorem poll_loop_idle (pre : List PollAnswer) (hpre : ∀ p ∈ pre, idle_poll p) :
    ∀ (m : monitor) (r : Option Texture), ∃ (t : List Call) (r2 : Option Texture),
      ∀ rest : List PollAnswer,
        m.poll_loop 0 r (pre ++ rest) =
          ((m.poll_loop 0 r2 rest).1, (m.poll_loop 0 r2 rest).2.1,
            t ++ (m.poll_loop 0 r2 rest).2.2) := by
  induction pre with
  | nil => intro m r; exact ⟨[], r, fun rest => rfl⟩
  | cons p pre ih =>
    intro m r
    obtain ⟨hz, hcase⟩ := hpre p (List.mem_cons_self _ _)
    obtain ⟨t, r2, hrec⟩ := ih (fun q hq => hpre q (List.mem_cons_of_mem _ hq)) m p.resource
    rcases hcase with h | h | ⟨h, hrel⟩
    · refine ⟨.AcquireNextFrame p.acquireHr :: .Sleep :: t, r2, fun rest => ?_⟩
      rw [List.cons_append, monitor.poll_loop]
      have d1 : DXGI_ERROR_WAIT_TIMEOUT ≠ DXGI_ERROR_INVALID_CALL := by decide
      have d2 : DXGI_ERROR_WAIT_TIMEOUT ≠ DXGI_ERROR_ACCESS_LOST := by decide
      simp only [h, d1, d2, hz, hrec rest]
      simp
    · obtain ⟨c1, c2, c3⟩ := codes_of_not_failed p.acquireHr h
      refine ⟨.AcquireNextFrame p.acquireHr :: t, r2, fun rest => ?_⟩
      rw [List.cons_append, monitor.poll_loop]
      simp only [c1, c2, c3, h, hz, hrec rest]
      simp
    · obtain ⟨_, c2, _⟩ := codes_of_not_failed p.releaseHr hrel
      refine ⟨.AcquireNextFrame p.acquireHr :: .ReleaseFrame p.releaseHr :: t, r2,
        fun rest => ?_⟩
      rw [List.cons_append, monitor.poll_loop]
      simp only [h, c2, hrel, hz, hrec rest]
      simp

theorem poll_loop_lost (m : monitor) (r : Option Texture) (p : PollAnswer)
    (h : access_lost_poll p) :
    ∃ t : List Call, ∀ rest : List PollAnswer,
      m.poll_loop 0 r (p :: rest) =
        ((monitor.poll_loop { m with dup_ := some p.rebind.dup, desc_ := p.rebind.getDesc.desc }
            0 p.resource rest).1,
          (monitor.poll_loop { m with dup_ := some p.rebind.dup, desc_ := p.rebind.getDesc.desc }
            0 p.resource rest).2.1,
          t ++ .DuplicateOutput1 p.rebind.dupHr :: .GetDesc1 p.rebind.getDesc.hr ::
            (monitor.poll_loop
              { m with dup_ := some p.rebind.dup, desc_ := p.rebind.getDesc.desc }
              0 p.resource rest).2.2) := by
  obtain ⟨hz, hcase, hd, hg⟩ := h
  have hre : m.recreate_output_duplication p.rebind =
      (.ok (), { m with dup_ := some p.rebind.dup, desc_ := p.rebind.getDesc.desc },
        [.DuplicateOutput1 p.rebind.dupHr, .GetDesc1 p.rebind.getDesc.hr]) := by
    simp [monitor.recreate_output_duplication, monitor.update_output_desc, hd, hg]
  rcases hcase with h | ⟨h, hrel⟩
  · refine ⟨[.AcquireNextFrame p.acquireHr], fun rest => ?_⟩
    rw [monitor.poll_loop]
    have d1 : DXGI_ERROR_ACCESS_LOST ≠ DXGI_ERROR_INVALID_CALL := by decide
    simp only [h, d1, hre, hz]
    simp
  · refine ⟨[.AcquireNextFrame p.acquireHr, .ReleaseFrame p.releaseHr], fun rest => ?_⟩
    rw [monitor.poll_loop]
    simp only [h, hrel, hre, hz]
    simp

theorem take_screenshot_bound_recovers (m : monitor) (a : ShotAnswers)
    (pre post rest : List PollAnswer) (lost frame : PollAnswer) (tex : Texture)
    (hpolls : a.polls = pre ++ lost :: (post ++ frame :: rest))
    (hpre : ∀ p ∈ pre, idle_poll p) (hlost : access_lost_poll lost)
    (hpost : ∀ p ∈ post, idle_poll p) (hframe : frame_poll frame tex)
    (hqi : a.asTexture = true) :
    ∃ t1 t2 : List Call,
      m.take_screenshot_bound a =
        (.ok tex,
          { m with last_tex_ := some tex, dup_ := some lost.rebind.dup,
                   desc_ := lost.rebind.getDesc.desc },
          t1 ++ .DuplicateOutput1 lost.rebind.dupHr :: .GetDesc1 lost.rebind.getDesc.hr ::
            (t2 ++ [.AcquireNextFrame frame.acquireHr])) := by
  obtain ⟨ta, ra, ha⟩ := poll_loop_idle pre hpre { m with last_tex_ := none } none
  obtain ⟨tl, hl⟩ := poll_loop_lost { m with last_tex_ := none } ra lost hlost
  obtain ⟨tb, rb, hb⟩ := poll_loop_idle post hpost
    { m with last_tex_ := none, dup_ := some lost.rebind.dup,
             desc_ := lost.rebind.getDesc.desc } lost.resource
  have hf := poll_loop_frame
    { m with last_tex_ := none, dup_ := some lost.rebind.dup,
             desc_ := lost.rebind.getDesc.desc } rb frame rest tex hframe
  refine ⟨ta ++ tl, tb, ?_⟩
  unfold monitor.take_screenshot_bound
  simp only [hpolls, ha, hl, hb, hf, hqi]
  simp

/-- C5: a `take_screenshot` whose polls report access lost exactly once, from
`AcquireNextFrame` or from `ReleaseFrame`, with rebinding successful, before a
frame is delivered (every other poll being idle), returns the surface of that
frame and throws nothing: the duplication handle is replaced by the re-created
one, and the poll is repeated after `DuplicateOutput1`. -/
theorem take_screenshot_recovers (m : monitor) (a : ShotAnswers)
    (pre post rest : List PollAnswer) (lost frame : PollAnswer) (tex : Texture)
    (hbind : m.dup_ = none → FAILED a.bind.dupHr = false ∧ FAILED a.bind.getDesc.hr = false)
    (hpolls : a.polls = pre ++ lost :: (post ++ frame :: rest))
    (hpre : ∀ p ∈ pre, idle_poll p) (hlost : access_lost_poll lost)
    (hpost : ∀ p ∈ post, idle_poll p) (hframe : frame_poll frame tex)
    (hqi : a.asTexture = true) :
    (m.take_screenshot a).1 = .ok tex ∧
    (m.take_screenshot a).2.1.last_tex_ = some tex ∧
    (m.take_screenshot a).2.1.dup_ = some lost.rebind.dup ∧
    ∃ t1 t2 : List Call,
      (m.take_screenshot a).2.2 =
        t1 ++ .DuplicateOutput1 lost.rebind.dupHr :: .GetDesc1 lost.rebind.getDesc.hr ::
          (t2 ++ [.AcquireNextFrame frame.acquireHr]) := by
  cases hd : m.dup_ with
  | some d =>
    obtain ⟨t1, t2, h⟩ :=
      take_screenshot_bound_recovers m a pre post rest lost frame tex hpolls hpre hlost hpost
        hframe hqi
    have e : m.take_screenshot a = m.take_screenshot_bound a := by
      simp only [monitor.take_screenshot, hd]
    rw [e, h]
    exact ⟨rfl, rfl, rfl, t1, t2, rfl⟩
  | none =>
    obtain ⟨b1, b2⟩ := hbind hd
    have hre : m.recreate_output_duplication a.bind =
        (.ok (), { m with dup_ := some a.bind.dup, desc_ := a.bind.getDesc.desc },
          [.DuplicateOutput1 a.bind.dupHr, .GetDesc1 a.bind.getDesc.hr]) := by
      simp [monitor.recreate_output_duplication, monitor.update_output_desc, b1, b2]
    obtain ⟨t1, t2, h⟩ :=
      take_screenshot_bound_recovers
        { m with dup_ := some a.bind.dup, desc_ := a.bind.getDesc.desc } a pre post rest lost
        frame tex hpolls hpre hlost hpost hframe hqi
    have e : m.take_screenshot a =
        (.ok tex,
          { m with last_tex_ := some tex, dup_ := some lost.rebind.dup,
                   desc_ := lost.rebind.getDesc.desc },
          [.DuplicateOutput1 a.bind.dupHr, .GetDesc1 a.bind.getDesc.hr] ++
            (t1 ++ .DuplicateOutput1 lost.rebind.dupHr :: .GetDesc1 lost.rebind.getDesc.hr ::
              (t2 ++ [.AcquireNextFrame frame.acquireHr]))) := by
      simp only [monitor.take_screenshot, hd, hre, h]
    rw [e]
    refine ⟨rfl, rfl, rfl,
      [.DuplicateOutput1 a.bind.dupHr, .GetDesc1 a.bind.getDesc.hr] ++ t1, t2, ?_⟩
    simp

/-- Witness of C5: a fresh session binds, meets a timeout, a loss of access and
a timeout, and then returns the frame. -/
theorem take_screenshot_recovers_witness :
    ((monitor.mk_new 7).take_screenshot demo_shot_lost).1 = .ok demo_frame ∧
    ((monitor.mk_new 7).take_screenshot demo_shot_lost).2.1.last_tex_ = some demo_frame ∧
    ((monitor.mk_new 7).take_screenshot demo_shot_lost).2.1.dup_ = some demo_lost_poll.rebind.dup ∧
    ∃ t1 t2 : List Call,
      ((monitor.mk_new 7).take_screenshot demo_shot_lost).2.2 =
        t1 ++ .DuplicateOutput1 demo_lost_poll.rebind.dupHr ::
          .GetDesc1 demo_lost_poll.rebind.getDesc.hr ::
          (t2 ++ [.AcquireNextFrame demo_frame_poll.acquireHr]) :=
  take_screenshot_recovers (monitor.mk_new 7) demo_shot_lost [demo_timeout_poll]
    [demo_timeout_poll] [] demo_lost_poll demo_frame_poll demo_frame
    (fun _ => ⟨by decide, by decide⟩) rfl
    (by
      intro p hp
      simp only [List.mem_singleton] at hp
      subst hp
      exact ⟨rfl, Or.inl rfl⟩)
    ⟨rfl, Or.inl rfl, by decide, by decide⟩
    (by
      intro p hp
      simp only [List.mem_singleton] at hp
      subst hp
      exact ⟨rfl, Or.inl rfl⟩)
    ⟨by decide, by decide, rfl⟩ rfl

/-! ## Acquired frames and their release -/

theorem refusal_run_append (l1 l2 : List Call) :
    ∀ b, refusal_run b (l1 ++ l2) = (refusal_run b l1).bind (fun b2 => refusal_run b2 l2) := by
  induction l1 with
  | nil => intro b; rfl
  | cons c rest ih =>
    intro b
    simp only [List.cons_append, refusal_run]
    cases refusal_step b c with
    | none => rfl
    | some b2 => exact ih b2

theorem recreate_run (m : monitor) (a : RecreateAnswer) :
    refusal_run false (m.recreate_output_duplication a).2.2 = some false := by
  unfold monitor.recreate_output_duplication monitor.update_output_desc
  dsimp only
  repeat' split
  all_goals rfl

theorem poll_loop_run (l : List PollAnswer) :
    ∀ (m : monitor) (lpt : Nat) (r : Option Texture),
      refusal_run false (m.poll_loop lpt r l).2.2 = some false := by
  induction l with
  | nil =>
    intro m lpt r
    unfold monitor.poll_loop
    split <;> rfl
  | cons a rest ih =>
    intro m lpt r
    have hrun := recreate_run m a.rebind
    rcases hre : m.recreate_output_duplication a.rebind with ⟨o, m1, t⟩
    rw [hre] at hrun
    dsimp only at hrun
    have i1 := ih m1 a.lastPresentTime a.resource
    have i2 := ih m a.lastPresentTime a.resource
    rw [monitor.poll_loop]
    simp only [hre]
    split_ifs with h1 h2 h3 h4 h5 h6 h7
    · rfl
    · cases o <;>
        simp [refusal_run, refusal_step, refusal_run_append, hrun, i1, h2]
    · simp [refusal_run, refusal_step, h2]
    · simp [refusal_run, refusal_step, h2, i2]
    · cases o <;>
        simp [refusal_run, refusal_step, refusal_run_append, hrun, i1, h2]
    · simp [refusal_run, refusal_step, h2, i2]
    · simp [refusal_run, refusal_step, h2]
    · simp [refusal_run, refusal_step, h2, i2]

theorem take_screenshot_run (m : monitor) (a : ShotAnswers) :
    refusal_run false (m.take_screenshot a).2.2 = some false := by
  have hb : ∀ m2 : monitor, refusal_run false (m2.take_screenshot_bound a).2.2 = some false := by
    intro m2
    have h := poll_loop_run a.polls { m2 with last_tex_ := none } 0 none
    unfold monitor.take_screenshot_bound
    dsimp only
    rcases hp : monitor.poll_loop { m2 with last_tex_ := none } 0 none a.polls with ⟨o, m3, t⟩
    rw [hp] at h
    cases o with
    | ok r =>
      dsimp only
      split <;> exact h
    | threw e => exact h
    | stalled => exact h
  unfold monitor.take_screenshot
  cases hd : m.dup_ with
  | some d => exact hb m
  | none =>
    dsimp only
    have hrun := recreate_run m a.bind
    rcases hre : m.recreate_output_duplication a.bind with ⟨o, m1, t⟩
    rw [hre] at hrun
    dsimp only at hrun
    cases o with
    | ok u =>
      dsimp only
      rw [refusal_run_append, hrun]
      exact hb m1
    | threw e => exact hrun
    | stalled => exact hrun

theorem take_screenshots_run (shots : List ShotAnswers) :
    ∀ m : monitor, refusal_run false (m.take_screenshots shots) = some false := by
  induction shots with
  | nil => intro m; rfl
  | cons a rest ih =>
    intro m
    have h := take_screenshot_run m a
    unfold monitor.take_screenshots
    rcases hs : m.take_screenshot a with ⟨o, m1, t⟩
    rw [hs] at h
    cases o with
    | ok r =>
      dsimp only
      rw [refusal_run_append, h]
      exact ih m1
    | threw e =>
      dsimp only
      rw [refusal_run_append, h]
      exact ih m1
    | stalled => exact h

theorem release_after_refused (pre : List Call) (hr : HRESULT) (post : List Call) :
    ∀ b, refusal_run b (pre ++ .AcquireNextFrame hr :: post) = some false →
      hr = DXGI_ERROR_INVALID_CALL → ∃ hr2 post2, post = .ReleaseFrame hr2 :: post2 := by
  induction pre with
  | nil =>
    intro b h hinv
    simp only [List.nil_append, refusal_run, refusal_step] at h
    cases b with
    | true => simp at h
    | false =>
      simp only [hinv, decide_True, Bool.false_eq_true, if_false] at h
      cases post with
      | nil => simp [refusal_run] at h
      | cons c post2 =>
        cases c with
        | ReleaseFrame hr2 => exact ⟨hr2, post2, rfl⟩
        | _ => simp [refusal_run, refusal_step] at h
  | cons c pre ih =>
    intro b h hinv
    simp only [List.cons_append, refusal_run] at h
    cases hs : refusal_step b c with
    | none => simp [hs] at h
    | some b2 =>
      rw [hs] at h
      exact ih b2 h hinv

theorem refused_before_release (pre : List Call) (hr : HRESULT) (post : List Call) :
    ∀ b f, refusal_run b (pre ++ .ReleaseFrame hr :: post) = some f →
      (pre = [] ∧ b = true) ∨
        ∃ pre2, pre = pre2 ++ [.AcquireNextFrame DXGI_ERROR_INVALID_CALL] := by
  induction pre with
  | nil =>
    intro b f h
    simp only [List.nil_append, refusal_run, refusal_step] at h
    cases b with
    | true => exact Or.inl ⟨rfl, rfl⟩
    | false => simp at h
  | cons c pre ih =>
    intro b f h
    simp only [List.cons_append, refusal_run] at h
    cases hs : refusal_step b c with
    | none => simp [hs] at h
    | some b2 =>
      rw [hs] at h
      rcases ih b2 f h with ⟨hp, hb⟩ | ⟨pre2, hp⟩
      · subst hp hb
        refine Or.inr ⟨[], ?_⟩
        cases c with
        | AcquireNextFrame h1 =>
          cases b <;> simp [refusal_step] at hs
          simp [hs]
        | ReleaseFrame h1 => cases b <;> simp [refusal_step] at hs
        | DuplicateOutput1 h1 => cases b <;> simp [refusal_step] at hs
        | GetDesc1 h1 => cases b <;> simp [refusal_step] at hs
        | Sleep => cases b <;> simp [refusal_step] at hs
      · exact Or.inr ⟨c :: pre2, by rw [hp]; rfl⟩

theorem outstanding_snoc (l : List Call) (c : Call) :
    outstanding (l ++ [c]) =
      (match c with
        | .AcquireNextFrame hr => if FAILED hr then outstanding l else outstanding l + 1
        | .ReleaseFrame hr => if FAILED hr then outstanding l else outstanding l - 1
        | .DuplicateOutput1 _ => 0
        | _ => outstanding l) := by
  simp only [outstanding, List.foldl_append, List.foldl_cons, List.foldl_nil]

theorem outstanding_le_one (T : List Call)
    (hplat : ∀ pre hr post, T = pre ++ .AcquireNextFrame hr :: post →
      outstanding pre ≠ 0 → hr = DXGI_ERROR_INVALID_CALL) :
    ∀ pre post, T = pre ++ post → outstanding pre ≤ 1 := by
  intro pre
  induction pre using List.reverseRecOn with
  | nil => intro post _; exact Nat.zero_le _
  | append_singleton l c ih =>
    intro post hT
    have hl : outstanding l ≤ 1 := ih (c :: post) (by rw [hT]; simp)
    rw [outstanding_snoc]
    cases c with
    | AcquireNextFrame hr =>
      dsimp only
      split
      · exact hl
      · rename_i hnf
        by_contra hgt
        have hne : outstanding l ≠ 0 := by omega
        have := hplat l hr post (by rw [hT]; simp) hne
        subst this
        exact hnf (by decide)
    | ReleaseFrame hr =>
      dsimp only
      split <;> omega
    | DuplicateOutput1 hr => exact Nat.zero_le _
    | GetDesc1 hr => exact hl
    | Sleep => exact hl

/-- C10, as the code has it: over every sequence of `take_screenshot` calls on one
session and every sequence of answers, the session requests `ReleaseFrame`
right after each `AcquireNextFrame` that the platform refuses with
`DXGI_ERROR_INVALID_CALL`, before any other request, and at no other moment;
it does not release before it polls.  With a platform that so refuses every
`AcquireNextFrame` requested while a frame is outstanding, at most one frame is
acquired and not released at any time. -/
theorem release_follows_refusal (m : monitor) (shots : List ShotAnswers) :
    (∀ pre hr post, m.take_screenshots shots = pre ++ .AcquireNextFrame hr :: post →
      hr = DXGI_ERROR_INVALID_CALL → ∃ hr2 post2, post = .ReleaseFrame hr2 :: post2) ∧
    (∀ pre hr post, m.take_screenshots shots = pre ++ .ReleaseFrame hr :: post →
      ∃ pre2, pre = pre2 ++ [.AcquireNextFrame DXGI_ERROR_INVALID_CALL]) ∧
    ((∀ pre hr post, m.take_screenshots shots = pre ++ .AcquireNextFrame hr :: post →
        outstanding pre ≠ 0 → hr = DXGI_ERROR_INVALID_CALL) →
      ∀ pre post, m.take_screenshots shots = pre ++ post → outstanding pre ≤ 1) := by
  have hrun := take_screenshots_run shots m
  refine ⟨?_, ?_, ?_⟩
  · intro pre hr post hT hinv
    rw [hT] at hrun
    exact release_after_refused pre hr post false hrun hinv
  · intro pre hr post hT
    rw [hT] at hrun
    rcases refused_before_release pre hr post false false hrun with ⟨_, hb⟩ | h
    · simp at hb
    · exact h
  · intro hplat
    exact outstanding_le_one _ hplat

/-- Counterexample to the wording of C10: a session takes two screenshots; when the
second call requests `AcquireNextFrame`, the frame acquired by the first call
has not been released. -/
theorem acquire_while_frame_outstanding :
    (monitor.mk_new 7).take_screenshots [demo_shot, demo_shot_next] =
      [.DuplicateOutput1 S_OK, .GetDesc1 S_OK, .AcquireNextFrame S_OK] ++
        .AcquireNextFrame DXGI_ERROR_INVALID_CALL ::
          [.ReleaseFrame S_OK, .AcquireNextFrame S_OK] ∧
    outstanding [.DuplicateOutput1 S_OK, .GetDesc1 S_OK, .AcquireNextFrame S_OK] = 1 := by
  decide

/-- Witness of C10, as the code has it, on the two screenshots of the counterexample:
the refused poll is followed by `ReleaseFrame`, the `ReleaseFrame` follows the
refused poll, and never more than one frame is outstanding. -/
theorem release_follows_refusal_witness :
    (∃ hr2 post2, [Call.ReleaseFrame S_OK, Call.AcquireNextFrame S_OK] =
      Call.ReleaseFrame hr2 :: post2) ∧
    (∃ pre2, [Call.DuplicateOutput1 S_OK, Call.GetDesc1 S_OK, Call.AcquireNextFrame S_OK,
        Call.AcquireNextFrame DXGI_ERROR_INVALID_CALL] =
      pre2 ++ [Call.AcquireNextFrame DXGI_ERROR_INVALID_CALL]) ∧
    outstanding [Call.DuplicateOutput1 S_OK, Call.GetDesc1 S_OK, Call.AcquireNextFrame S_OK,
      Call.AcquireNextFrame DXGI_ERROR_INVALID_CALL] ≤ 1 := by
  have hT : (monitor.mk_new 7).take_screenshots [demo_shot, demo_shot_next] =
      [.DuplicateOutput1 S_OK, .GetDesc1 S_OK, .AcquireNextFrame S_OK,
        .AcquireNextFrame DXGI_ERROR_INVALID_CALL, .ReleaseFrame S_OK,
        .AcquireNextFrame S_OK] := by decide
  have h := release_follows_refusal (monitor.mk_new 7) [demo_shot, demo_shot_next]
  refine ⟨h.1 [.DuplicateOutput1 S_OK, .GetDesc1 S_OK, .AcquireNextFrame S_OK]
      DXGI_ERROR_INVALID_CALL [.ReleaseFrame S_OK, .AcquireNextFrame S_OK] (by rw [hT]; rfl) rfl,
    h.2.1 [.DuplicateOutput1 S_OK, .GetDesc1 S_OK, .AcquireNextFrame S_OK,
      .AcquireNextFrame DXGI_ERROR_INVALID_CALL] S_OK [.AcquireNextFrame S_OK]
      (by rw [hT]; rfl),
    h.2.2 ?_ _ [.ReleaseFrame S_OK, .AcquireNextFrame S_OK] (by rw [hT]; rfl)⟩
  intro pre hr post hsplit hne
  rw [hT] at hsplit
  rcases pre with _ | ⟨c0, _ | ⟨c1, _ | ⟨c2, _ | ⟨c3, _ | ⟨c4, _ | ⟨c5, pre⟩⟩⟩⟩⟩⟩ <;>
    simp at hsplit
  · obtain ⟨rfl, rfl, rfl, rfl, rfl⟩ := hsplit
    exact absurd (by decide) hne
  · obtain ⟨rfl, rfl, rfl, rfl, rfl⟩ := hsplit
    rfl
  · obtain ⟨rfl, rfl, rfl, rfl, rfl, _⟩ := hsplit
    exact absurd (by decide) hne

/-! ## The first delivered frame ends the polling -/

theorem recreate_last_tex (m : monitor) (a : RecreateAnswer) :
    (m.recreate_output_duplication a).2.1.last_tex_ = m.last_tex_ := by
  unfold monitor.recreate_output_duplication monitor.update_output_desc
  dsimp only
  repeat' split
  all_goals rfl

theorem poll_loop_last_tex (l : List PollAnswer) :
    ∀ (m : monitor) (lpt : Nat) (r : Option Texture),
      (m.poll_loop lpt r l).2.1.last_tex_ = m.last_tex_ := by
  induction l with
  | nil =>
    intro m lpt r
    unfold monitor.poll_loop
    split <;> rfl
  | cons a rest ih =>
    intro m lpt r
    have hk := recreate_last_tex m a.rebind
    rcases hre : m.recreate_output_duplication a.rebind with ⟨o, m1, t⟩
    rw [hre] at hk
    dsimp only at hk
    have i1 := ih m1 a.lastPresentTime a.resource
    have i2 := ih m a.lastPresentTime a.resource
    rw [monitor.poll_loop]
    simp only [hre]
    split_ifs
    · rfl
    · cases o <;> simp [i1, hk]
    · rfl
    · simp [i2]
    · cases o <;> simp [i1, hk]
    · simp [i2]
    · rfl
    · simp [i2]

theorem poll_loop_step (p : PollAnswer) (hp : idle_poll p ∨ access_lost_poll p)
    (m : monitor) (r : Option Texture) :
    ∃ (t : List Call) (m2 : monitor) (r2 : Option Texture),
      acquire_count t = 1 ∧
      ∀ rest : List PollAnswer,
        m.poll_loop 0 r (p :: rest) =
          ((m2.poll_loop 0 r2 rest).1, (m2.poll_loop 0 r2 rest).2.1,
            t ++ (m2.poll_loop 0 r2 rest).2.2) := by
  rcases hp with ⟨hz, hcase⟩ | hlost
  · rcases hcase with h | h | ⟨h, hrel⟩
    · refine ⟨[.AcquireNextFrame p.acquireHr, .Sleep], m, p.resource, rfl, fun rest => ?_⟩
      rw [monitor.poll_loop]
      have d1 : DXGI_ERROR_WAIT_TIMEOUT ≠ DXGI_ERROR_INVALID_CALL := by decide
      have d2 : DXGI_ERROR_WAIT_TIMEOUT ≠ DXGI_ERROR_ACCESS_LOST := by decide
      simp only [h, d1, d2, hz]
      simp
    · obtain ⟨c1, c2, c3⟩ := codes_of_not_failed p.acquireHr h
      refine ⟨[.AcquireNextFrame p.acquireHr], m, p.resource, rfl, fun rest => ?_⟩
      rw [monitor.poll_loop]
      simp only [c1, c2, c3, h, hz]
      simp
    · obtain ⟨_, c2, _⟩ := codes_of_not_failed p.releaseHr hrel
      refine ⟨[.AcquireNextFrame p.acquireHr, .ReleaseFrame p.releaseHr], m, p.resource, rfl,
        fun rest => ?_⟩
      rw [monitor.poll_loop]
      simp only [h, c2, hrel, hz]
      simp
  · obtain ⟨t, ht⟩ := poll_loop_lost m r p hlost
    obtain ⟨hz, hcase, hd, hg⟩ := hlost
    have hre : m.recreate_output_duplication p.rebind =
        (.ok (), { m with dup_ := some p.rebind.dup, desc_ := p.rebind.getDesc.desc },
          [.DuplicateOutput1 p.rebind.dupHr, .GetDesc1 p.rebind.getDesc.hr]) := by
      simp [monitor.recreate_output_duplication, monitor.update_output_desc, hd, hg]
    rcases hcase with h | ⟨h, hrel⟩
    · refine ⟨[.AcquireNextFrame p.acquireHr, .DuplicateOutput1 p.rebind.dupHr,
          .GetDesc1 p.rebind.getDesc.hr],
        { m with dup_ := some p.rebind.dup, desc_ := p.rebind.getDesc.desc }, p.resource, rfl,
        fun rest => ?_⟩
      rw [monitor.poll_loop]
      have d1 : DXGI_ERROR_ACCESS_LOST ≠ DXGI_ERROR_INVALID_CALL := by decide
      simp only [h, d1, hre, hz]
      simp
    · refine ⟨[.AcquireNextFrame p.acquireHr, .ReleaseFrame p.releaseHr,
          .DuplicateOutput1 p.rebind.dupHr, .GetDesc1 p.rebind.getDesc.hr],
        { m with dup_ := some p.rebind.dup, desc_ := p.rebind.getDesc.desc }, p.resource, rfl,
        fun rest => ?_⟩
      rw [monitor.poll_loop]
      simp only [h, hrel, hre, hz]
      simp

theorem acquire_count_append (t1 t2 : List Call) :
    acquire_count (t1 ++ t2) = acquire_count t1 + acquire_count t2 := by
  simp [acquire_count, List.countP_append]

theorem poll_loop_prefix (pre : List PollAnswer)
    (hpre : ∀ p ∈ pre, idle_poll p ∨ access_lost_poll p) :
    ∀ (m : monitor) (r : Option Texture),
      ∃ (t : List Call) (m2 : monitor) (r2 : Option Texture),
        acquire_count t = pre.length ∧
        ∀ rest : List PollAnswer,
          m.poll_loop 0 r (pre ++ rest) =
            ((m2.poll_loop 0 r2 rest).1, (m2.poll_loop 0 r2 rest).2.1,
              t ++ (m2.poll_loop 0 r2 rest).2.2) := by
  induction pre with
  | nil => intro m r; exact ⟨[], m, r, rfl, fun rest => rfl⟩
  | cons p pre ih =>
    intro m r
    obtain ⟨t1, m1, r1, c1, h1⟩ := poll_loop_step p (hpre p (List.mem_cons_self _ _)) m r
    obtain ⟨t2, m2, r2, c2, h2⟩ :=
      ih (fun q hq => hpre q (List.mem_cons_of_mem _ hq)) m1 r1
    refine ⟨t1 ++ t2, m2, r2, ?_, fun rest => ?_⟩
    · rw [acquire_count_append, c1, c2, List.length_cons]
      omega
    · rw [List.cons_append, h1 (pre ++ rest), h2 rest]
      simp

theorem take_screenshot_bound_first_frame (m : monitor) (pre : List PollAnswer)
    (frame : PollAnswer) (tex : Texture)
    (hpre : ∀ p ∈ pre, idle_poll p ∨ access_lost_poll p) (hframe : frame_poll frame tex) :
    ∃ (t : List Call) (m2 : monitor), acquire_count t = pre.length ∧
      ∀ b : ShotAnswers, b.asTexture = true →
        (∃ rest, b.polls = pre ++ frame :: rest) →
        m.take_screenshot_bound b =
          (.ok tex, { m2 with last_tex_ := some tex },
            t ++ [.AcquireNextFrame frame.acquireHr]) := by
  obtain ⟨t, m2, r2, hc, h⟩ := poll_loop_prefix pre hpre { m with last_tex_ := none } none
  refine ⟨t, m2, hc, ?_⟩
  intro b hqi hb
  obtain ⟨rest, hb⟩ := hb
  have hf := poll_loop_frame m2 r2 frame rest tex hframe
  unfold monitor.take_screenshot_bound
  simp only [hb, h, hf, hqi]
  simp

/-- C11, as the code has it: on a bound session, the first `AcquireNextFrame`
poll that succeeds and reports a non-zero last-present time ends the polling
loop of `take_screenshot` with no further poll (the answers after it are not
consulted), provided its resource is a 2-D texture; `last_tex_` becomes that
frame's surface, whatever was retained before, and the surface is returned.
The polls before it may be timeouts, refusals followed by a release, losses of
access followed by a rebind, or successes with a last-present time of zero. -/
theorem take_screenshot_first_frame (m : monitor) (a : ShotAnswers)
    (pre rest : List PollAnswer) (frame : PollAnswer) (tex : Texture)
    (hbound : m.dup_ ≠ none) (hpolls : a.polls = pre ++ frame :: rest)
    (hpre : ∀ p ∈ pre, idle_poll p ∨ access_lost_poll p) (hframe : frame_poll frame tex)
    (hqi : a.asTexture = true) :
    (m.take_screenshot a).1 = .ok tex ∧
    (m.take_screenshot a).2.1.last_tex_ = some tex ∧
    (∃ t, (m.take_screenshot a).2.2 = t ++ [.AcquireNextFrame frame.acquireHr]) ∧
    acquire_count (m.take_screenshot a).2.2 = pre.length + 1 ∧
    m.take_screenshot a = m.take_screenshot { a with polls := pre ++ [frame] } := by
  obtain ⟨d, hd⟩ : ∃ d, m.dup_ = some d := by
    cases e : m.dup_ with
    | none => exact absurd e hbound
    | some d => exact ⟨d, rfl⟩
  have e1 : ∀ b : ShotAnswers, m.take_screenshot b = m.take_screenshot_bound b := by
    intro b
    simp only [monitor.take_screenshot, hd]
  obtain ⟨t, m2, hc, h⟩ := take_screenshot_bound_first_frame m pre frame tex hpre hframe
  have h1 := h a hqi ⟨rest, hpolls⟩
  have h2 := h { a with polls := pre ++ [frame] } hqi ⟨[], rfl⟩
  rw [e1 a, e1 { a with polls := pre ++ [frame] }, h1, h2]
  refine ⟨rfl, rfl, ⟨t, rfl⟩, ?_, rfl⟩
  dsimp only
  rw [acquire_count_append, hc]
  rfl

/-- Witness of C11, as the code has it: on a bound session that retains an
earlier texture, a quiet poll and a refused poll are followed by the poll that
delivers the frame; the answers after it are not consulted. -/
theorem take_screenshot_first_frame_witness :
    (demo_bound.take_screenshot
      { demo_shot_quiet with polls := demo_shot_quiet.polls ++ [demo_timeout_poll] }).1 =
        .ok (demo_frame_of 1) ∧
    (demo_bound.take_screenshot
      { demo_shot_quiet with polls := demo_shot_quiet.polls ++ [demo_timeout_poll] }).2.1.last_tex_ =
        some (demo_frame_of 1) ∧
    acquire_count (demo_bound.take_screenshot
      { demo_shot_quiet with polls := demo_shot_quiet.polls ++ [demo_timeout_poll] }).2.2 = 2 + 1 :=
  have h := take_screenshot_first_frame demo_bound
    { demo_shot_quiet with polls := demo_shot_quiet.polls ++ [demo_timeout_poll] }
    [demo_quiet_poll, demo_refused_poll] [demo_timeout_poll]
    { demo_frame_poll with resource := some (demo_frame_of 1) } (demo_frame_of 1)
    (by decide) rfl
    (by
      intro p hp
      simp only [List.mem_cons, List.mem_singleton, List.not_mem_nil, or_false] at hp
      rcases hp with rfl | rfl
      · exact Or.inl ⟨rfl, Or.inr (Or.inl (by decide))⟩
      · exact Or.inl ⟨rfl, Or.inr (Or.inr ⟨rfl, by decide⟩)⟩)
    ⟨by decide, by decide, rfl⟩ rfl
  ⟨h.1, h.2.1, h.2.2.2.1⟩

/-- Counterexample to the wording of C11: on a bound session the first poll
succeeds with a last-present time of zero and hands out `demo_frame`; the loop
does not end there: two more polls follow and the surface returned and retained
is that of the later frame. -/
theorem quiet_success_does_not_end_polling :
    FAILED demo_quiet_poll.acquireHr = false ∧
    demo_quiet_poll.resource = some demo_frame ∧
    demo_bound.take_screenshot demo_shot_quiet =
      (.ok (demo_frame_of 1), { demo_bound with last_tex_ := some (demo_frame_of 1) },
        [.AcquireNextFrame S_OK, .AcquireNextFrame DXGI_ERROR_INVALID_CALL,
          .ReleaseFrame S_OK, .AcquireNextFrame S_OK]) ∧
    demo_frame_of 1 ≠ demo_frame := by
  decide

/-! ## The placement transform -/

end BitbltHdr
